import Mathlib

/-!
# Rashdeman backend: request handlers of `src/server.js`

A shallow embedding of the Express handlers of `src/server.js` as pure
functions over the JSON document kept in `data.json`.

Modelling conventions.

* A handler is a function from the document that `readData` returned to a pair
  `(reply, document on disk afterwards)`.  When a handler answers before
  `writeData`, or when `writeData` throws, the document on disk is the one that
  was read.
* Values the handler obtains from its surroundings are passed in an `Env`:
  the result of `uuidv4()`, the result of `new Date().toISOString()`, whether
  `fs.writeFile` succeeds, and the library function `bcrypt.hash`.
* JavaScript numbers are IEEE doubles.  Every number the handlers compute is
  integer-valued, so a finite number is modelled by the integer it equals
  (`Int`), and every arithmetic result is rounded to the nearest double, ties
  to the even significand (`roundDouble`).  A result that is not finite (`NaN`,
  `Infinity`) is `none`: that is how it is stored and sent, since
  `JSON.stringify` writes it as `null`.  The stored fields `duration`,
  `penalty`, `amount` and `totalPenalty` are therefore `Option Int`, `none`
  standing for `null`, and arithmetic reads `null` as `0` (JavaScript
  `ToNumber(null)`).  `progress` starts at `0` and is only ever assigned
  `Math.min(progress + 1, duration)`, which is finite.
* A number of a request body is an integer literal (`JVal.num`), read as the
  nearest double; literals with a fractional part are outside the model.
* Request-body fields are JSON scalars (`JVal`), `undefined` standing for an
  absent field.  `===` and `Array.prototype.includes` on such scalars are
  structural equality; identifiers, names and emails are strings, and a number
  used in their place is compared by its literal.
* The constant `message` text of a successful reply is left out of the reply
  payload; error replies keep their status and message.
-/

namespace Rashdeman

/-- A JSON scalar of a request body; `undefined` is an absent field. -/
inductive JVal where
  | undefined
  | null
  | bool (b : Bool)
  | num (n : Int)
  | str (s : String)
  deriving DecidableEq

/-- JavaScript truthiness (`!v` is `false`) of a scalar. -/
def JVal.truthy : JVal → Bool
  | .undefined => false
  | .null => false
  | .bool b => b
  | .num n => n != 0
  | .str s => s != ""

/-- JavaScript `a || b` on scalars. -/
def JVal.orElse (a b : JVal) : JVal := if a.truthy then a else b

/-- The characters `parseInt` skips at the start of its input
(ECMAScript `WhiteSpace` and `LineTerminator`). -/
def isStrWhiteSpace (c : Char) : Bool :=
  let n := c.toNat
  n == 0x09 || n == 0x0A || n == 0x0B || n == 0x0C || n == 0x0D || n == 0x20 ||
  n == 0xA0 || n == 0x1680 || (0x2000 ≤ n && n ≤ 0x200A) || n == 0x2028 ||
  n == 0x2029 || n == 0x202F || n == 0x205F || n == 0x3000 || n == 0xFEFF

/-- Value of a character as a digit (`0-9`, `a-z`, `A-Z`), if it is one. -/
def digitValue (c : Char) : Option Nat :=
  let n := c.toNat
  if 48 ≤ n ∧ n ≤ 57 then some (n - 48)
  else if 97 ≤ n ∧ n ≤ 122 then some (n - 97 + 10)
  else if 65 ≤ n ∧ n ≤ 90 then some (n - 65 + 10)
  else none

/-- Drop the leading white space of a character list. -/
def dropWhiteSpace : List Char → List Char
  | [] => []
  | c :: cs => if isStrWhiteSpace c then dropWhiteSpace cs else c :: cs

/-- The longest leading run of digits of the given radix, as digit values. -/
def takeDigits (radix : Nat) : List Char → List Nat
  | [] => []
  | c :: cs =>
    match digitValue c with
    | some v => if v < radix then v :: takeDigits radix cs else []
    | none => []

/-- The number written by a list of digit values in the given radix. -/
def digitsValue (radix : Nat) (ds : List Nat) : Nat :=
  ds.foldl (fun acc v => acc * radix + v) 0

/-- Number of binary digits of `n`, counted up to `fuel`. -/
def bitLengthAux : Nat → Nat → Nat
  | 0, _ => 0
  | fuel + 1, n => if n = 0 then 0 else bitLengthAux fuel (n / 2) + 1

/-- Number of binary digits of `n`; every `n` of more than 1100 binary digits
counts as 1100, which is beyond the largest double (1024 digits). -/
def bitLength (n : Nat) : Nat := bitLengthAux 1100 n

/-- The double nearest to a natural number: numbers up to `2^53` are doubles;
above, the number is rounded to 53 significant binary digits, a tie going to
the even significand; `none` when the result has more than 1024 binary digits
(`Infinity`). -/
def roundNat (a : Nat) : Option Nat :=
  if a ≤ 9007199254740992 then some a
  else
    let e := bitLength a - 53
    let q := a / 2 ^ e
    let r := a % 2 ^ e
    let half := 2 ^ (e - 1)
    let m := if r > half || (r == half && q % 2 == 1) then q + 1 else q
    let v := m * 2 ^ e
    if bitLength v ≤ 1024 then some v else none

/-- The double nearest to an integer; `none` is `Infinity` or `-Infinity`. -/
def roundDouble (x : Int) : Option Int :=
  (roundNat x.natAbs).map (fun v => if x < 0 then -(v : Int) else (v : Int))

/-- JavaScript `a + b` on finite integer-valued numbers: the exact sum rounded
to the nearest double. -/
def jsAdd (a b : Int) : Option Int := roundDouble (a + b)

/-- `Math.min(a, b)` for a finite `b` and an `a` that is `progress + 1`: a sum
of a stored number and `1` is never `-Infinity`, so `none` is `Infinity`. -/
def mathMin (a : Option Int) (b : Int) : Int :=
  match a with
  | some x => min x b
  | none => b

/-- Number of decimal digits of `n`, counted up to `fuel`. -/
def decLengthAux : Nat → Nat → Nat
  | 0, _ => 0
  | fuel + 1, n => if n < 10 then 1 else decLengthAux fuel (n / 10) + 1

/-- Number of decimal digits of a positive double (at most 309). -/
def decLength (n : Nat) : Nat := decLengthAux 400 n

/-- First digit of `String(v)` for a double `v ≥ 10^21`, which is written in
exponent form with the fewest digits that read back as `v`: the leading digit
of `v`, unless the next multiple of that power of ten still rounds to `v`. -/
def exponentFormLeadingDigit (v : Nat) : Nat :=
  let p := 10 ^ (decLength v - 1)
  let l := v / p
  let e := bitLength v - 53
  let half := 2 ^ (e - 1)
  let high := if (v / 2 ^ e) % 2 == 0 then v + half else v + half - 1
  if (l + 1) * p ≤ high then (if l == 9 then 1 else l + 1) else l

/-- `parseInt` on a string without a radix argument: skip white space, read
a sign, switch to radix 16 after `0x`/`0X`, read the longest run of digits
and take the nearest double; `none` is `NaN` or an infinity. -/
def parseIntChars (input : List Char) : Option Int :=
  let s := dropWhiteSpace input
  let negative := s.head? == some '-'
  let s := if s.head? == some '-' || s.head? == some '+' then s.tail else s
  let hex := match s with
    | '0' :: 'x' :: _ => true
    | '0' :: 'X' :: _ => true
    | _ => false
  let radix := if hex then 16 else 10
  let s := if hex then s.drop 2 else s
  let ds := takeDigits radix s
  if ds.isEmpty then none
  else
    let v : Int := (digitsValue radix ds : Nat)
    roundDouble (if negative then -v else v)

/-- `parseInt(v)` for a number `v`: `String(v)` is the decimal digits of `v`
below `10^21`, which parse back to `v`; from `10^21` on it is in exponent
form, of which `parseInt` reads the leading digit only; `Infinity` gives
`NaN`. -/
def parseIntNumber (n : Int) : Option Int :=
  match roundDouble n with
  | none => none
  | some v =>
    if v.natAbs < 1000000000000000000000 then some v
    else
      let d : Int := (exponentFormLeadingDigit v.natAbs : Nat)
      some (if v < 0 then -d else d)

/-- `parseInt(v)`: the argument is converted to a string first, so `undefined`,
`null` and booleans give `NaN` (`none`). -/
def parseInt : JVal → Option Int
  | .undefined => none
  | .null => none
  | .bool _ => none
  | .num n => parseIntNumber n
  | .str s => parseIntChars s.data

/-- `ToNumber` of a stored numeric field: `null` reads as `0`. -/
def toNumber : Option Int → Int
  | some n => n
  | none => 0

/-! ## The document -/

structure User where
  id : String
  name : JVal
  email : JVal
  password : String
  deriving DecidableEq

structure Charity where
  id : String
  name : String
  link : String
  deriving DecidableEq

structure Challenge where
  id : String
  userId : JVal
  title : JVal
  description : JVal
  duration : Option Int
  penalty : Option Int
  charityId : JVal
  progress : Int
  totalPenalty : Option Int
  witnesses : List JVal
  createdAt : String
  deriving DecidableEq

structure Penalty where
  id : String
  challengeId : String
  date : String
  amount : Option Int
  recordedBy : JVal
  deriving DecidableEq

structure Invitation where
  id : String
  fromUserId : JVal
  toUserId : JVal
  challengeId : JVal
  status : String
  createdAt : String
  deriving DecidableEq

/-- The JSON document of `data.json`. -/
structure Store where
  users : List User
  challenges : List Challenge
  invitations : List Invitation
  penalties : List Penalty
  charities : List Charity
  deriving DecidableEq

/-- The document `readData` returns when the file cannot be read or parsed. -/
def defaultData : Store :=
  { users := []
    challenges := []
    invitations := []
    penalties := []
    charities :=
      [ { id := "charity1", name := "محک", link := "https://mahak-charity.org/online-payment/" },
        { id := "charity2", name := "کهریزک", link := "https://kahrizakcharity.com/" } ] }

/-- `readData`: the parsed file, or the default document when reading or
parsing fails (`none`). -/
def readData (file : Option Store) : Store :=
  match file with
  | some data => data
  | none => defaultData

/-- What a handler takes from its surroundings during one request. -/
structure Env where
  uuid : String
  now : String
  writeOk : Bool
  bcryptHash : JVal → Option String

/-- `writeData`: the document now on disk, or `none` when the write throws. -/
def writeData (env : Env) (data : Store) : Option Store :=
  if env.writeOk then some data else none

/-- A handler's answer: `res.json(body)` or `res.status(status).json({ message })`. -/
inductive Reply (α : Type) where
  | json (body : α)
  | fail (status : Nat) (message : String)

/-- Whether the reply is a `res.json` success. -/
def Reply.isJson {α : Type} : Reply α → Bool
  | .json _ => true
  | .fail _ _ => false

/-- Apply `f` to the first element satisfying `q`: the effect on the array of
assigning to fields of the object `find` returned. -/
def updateFirst {α : Type} (q : α → Bool) (f : α → α) : List α → List α
  | [] => []
  | x :: xs => if q x then f x :: xs else x :: updateFirst q f xs

/-! ## Handlers -/

structure PublicUser where
  id : String
  name : JVal
  email : JVal
  deriving DecidableEq

/-- `POST /register`. -/
def register (env : Env) (name email password : JVal) (data : Store) :
    Reply PublicUser × Store :=
  if !name.truthy || !email.truthy || !password.truthy then
    (.fail 400 "نام، ایمیل و رمز عبور الزامی است", data)
  else
    match data.users.find? (fun u => u.email == email) with
    | some _ => (.fail 400 "ایمیل قبلاً ثبت شده", data)
    | none =>
      match env.bcryptHash password with
      | none => (.fail 500 "خطا در سرور هنگام ثبت‌نام", data)
      | some hashedPassword =>
        let user : User :=
          { id := env.uuid, name := name, email := email, password := hashedPassword }
        let data1 := { data with users := data.users ++ [user] }
        match writeData env data1 with
        | none => (.fail 500 "خطا در سرور هنگام ثبت‌نام", data)
        | some saved => (.json { id := user.id, name := name, email := email }, saved)

/-- Body of `POST /challenges`. -/
structure CreateRequest where
  userId : JVal
  title : JVal
  description : JVal
  duration : JVal
  penalty : JVal
  charityId : JVal

/-- The object literal `challenge` of `POST /challenges`. -/
def newChallenge (env : Env) (req : CreateRequest) : Challenge :=
  { id := env.uuid
    userId := req.userId
    title := req.title
    description := req.description.orElse (.str "")
    duration := parseInt req.duration
    penalty := parseInt req.penalty
    charityId := req.charityId
    progress := 0
    totalPenalty := some 0
    witnesses := []
    createdAt := env.now }

/-- `POST /challenges`. -/
def createChallenge (env : Env) (req : CreateRequest) (data : Store) :
    Reply Challenge × Store :=
  if !req.userId.truthy || !req.title.truthy || !req.duration.truthy ||
      !req.penalty.truthy || !req.charityId.truthy then
    (.fail 400 "همه فیلدها الزامی است", data)
  else
    let challenge := newChallenge env req
    let data1 := { data with challenges := data.challenges ++ [challenge] }
    match writeData env data1 with
    | none => (.fail 500 "خطا در ایجاد چالش", data)
    | some saved => (.json challenge, saved)

/-- The assignments of `POST /challenges/:id/penalties` to the found challenge. -/
def addPenaltyTo (c : Challenge) : Challenge :=
  { c with
    progress := mathMin (jsAdd c.progress 1) (toNumber c.duration)
    totalPenalty := jsAdd (toNumber c.totalPenalty) (toNumber c.penalty) }

/-- `POST /challenges/:id/penalties`. -/
def recordPenalty (env : Env) (id : String) (recordedBy : JVal) (data : Store) :
    Reply (Challenge × Penalty) × Store :=
  match data.challenges.find? (fun c => c.id == id) with
  | none => (.fail 404 "چالش یافت نشد", data)
  | some challenge =>
    if challenge.userId != recordedBy && !challenge.witnesses.contains recordedBy then
      (.fail 403 "فقط مالک چالش یا شاهد می‌تواند جریمه ثبت کند", data)
    else
      let updated := addPenaltyTo challenge
      let penalty : Penalty :=
        { id := env.uuid
          challengeId := id
          date := env.now
          amount := updated.penalty
          recordedBy := recordedBy.orElse updated.userId }
      let data1 :=
        { data with
          challenges := updateFirst (fun c => c.id == id) addPenaltyTo data.challenges
          penalties := data.penalties ++ [penalty] }
      match writeData env data1 with
      | none => (.fail 500 "خطا در ثبت جریمه", data)
      | some saved => (.json (updated, penalty), saved)

/-- The assignments of `POST /challenges/:id/confirm-payment` to the found challenge. -/
def resetChallenge (c : Challenge) : Challenge :=
  { c with totalPenalty := some 0, progress := 0 }

/-- `POST /challenges/:id/confirm-payment`. -/
def confirmPayment (env : Env) (id : String) (userId : JVal) (data : Store) :
    Reply Challenge × Store :=
  match data.challenges.find? (fun c => c.id == id && c.userId == userId) with
  | none => (.fail 404 "چالش یافت نشد یا دسترسی ندارید", data)
  | some challenge =>
    let data1 :=
      { data with
        challenges :=
          updateFirst (fun c => c.id == id && c.userId == userId) resetChallenge data.challenges
        penalties := data.penalties.filter (fun p => p.challengeId != id) }
    match writeData env data1 with
    | none => (.fail 500 "خطا در تأیید پرداخت", data)
    | some saved => (.json (resetChallenge challenge), saved)

/-- The conditional `push` of `POST /challenges/:id/witnesses` on the found challenge. -/
def pushWitness (witnessId : JVal) (c : Challenge) : Challenge :=
  if !c.witnesses.contains witnessId then
    { c with witnesses := c.witnesses ++ [witnessId] }
  else c

/-- `POST /challenges/:id/witnesses`. -/
def addWitness (env : Env) (id : String) (witnessId : JVal) (data : Store) :
    Reply Challenge × Store :=
  match data.challenges.find? (fun c => c.id == id) with
  | none => (.fail 404 "چالش یافت نشد", data)
  | some challenge =>
    match data.users.find? (fun u => JVal.str u.id == witnessId) with
    | none => (.fail 404 "کاربر شاهد یافت نشد", data)
    | some _ =>
      let data1 :=
        { data with
          challenges := updateFirst (fun c => c.id == id) (pushWitness witnessId) data.challenges }
      match writeData env data1 with
      | none => (.fail 500 "خطا در اضافه کردن شاهد", data)
      | some saved => (.json (pushWitness witnessId challenge), saved)

/-- `GET /challenges/:userId`. -/
def listChallenges (userId : String) (data : Store) : List Challenge :=
  data.challenges.filter (fun c => c.userId == .str userId || c.witnesses.contains (.str userId))

/-- `GET /challenges/:id/penalties`. -/
def listPenalties (id : String) (data : Store) : List Penalty :=
  data.penalties.filter (fun p => p.challengeId == id)

/-- The `stats` object of `GET /profile/:userId`; a `totalPenalties` that is
not finite is `none` (sent as `null`). -/
structure ProfileStats where
  totalChallenges : Nat
  activeChallenges : Nat
  completedChallenges : Nat
  totalPenalties : Option Int
  deriving DecidableEq

/-- `GET /profile/:userId`. -/
def profile (userId : String) (data : Store) : ProfileStats :=
  let userChallenges := data.challenges.filter (fun c => c.userId == .str userId)
  { totalChallenges := userChallenges.length
    activeChallenges :=
      (userChallenges.filter (fun c => decide (c.progress < toNumber c.duration))).length
    completedChallenges :=
      (userChallenges.filter (fun c => decide (c.progress ≥ toNumber c.duration))).length
    totalPenalties :=
      userChallenges.foldl
        (fun sum c => sum.bind (fun n => jsAdd n (toNumber c.totalPenalty))) (some 0) }

/-- `GET /charities`. -/
def listCharities (data : Store) : List Charity := data.charities

/-- `POST /invitations`. -/
def invite (env : Env) (fromUserId toUserId challengeId : JVal) (data : Store) :
    Reply Invitation × Store :=
  if !fromUserId.truthy || !toUserId.truthy || !challengeId.truthy then
    (.fail 400 "همه فیلدها الزامی است", data)
  else
    let fromUser := data.users.find? (fun u => JVal.str u.id == fromUserId)
    let toUser := data.users.find? (fun u => JVal.str u.id == toUserId)
    let challenge := data.challenges.find? (fun c => JVal.str c.id == challengeId)
    if fromUser.isNone || toUser.isNone || challenge.isNone then
      (.fail 404 "کاربر یا چالش یافت نشد", data)
    else
      let invitation : Invitation :=
        { id := env.uuid
          fromUserId := fromUserId
          toUserId := toUserId
          challengeId := challengeId
          status := "pending"
          createdAt := env.now }
      let data1 := { data with invitations := data.invitations ++ [invitation] }
      match writeData env data1 with
      | none => (.fail 500 "خطا در ارسال دعوت‌نامه", data)
      | some saved => (.json invitation, saved)

/-- `GET /invitations/:userId`. -/
def listInvitations (userId : String) (data : Store) : List Invitation :=
  data.invitations.filter (fun i => i.toUserId == .str userId)

/-! ## Request sequences -/

/-- A state-changing request. -/
inductive Request where
  | register (name email password : JVal)
  | createChallenge (req : CreateRequest)
  | recordPenalty (id : String) (recordedBy : JVal)
  | confirmPayment (id : String) (userId : JVal)
  | addWitness (id : String) (witnessId : JVal)
  | invite (fromUserId toUserId challengeId : JVal)

/-- The document on disk after serving one request. -/
def handle (env : Env) (r : Request) (data : Store) : Store :=
  match r with
  | .register name email password => (register env name email password data).2
  | .createChallenge req => (createChallenge env req data).2
  | .recordPenalty id recordedBy => (recordPenalty env id recordedBy data).2
  | .confirmPayment id userId => (confirmPayment env id userId data).2
  | .addWitness id witnessId => (addWitness env id witnessId data).2
  | .invite fromUserId toUserId challengeId =>
    (invite env fromUserId toUserId challengeId data).2

/-- The document on disk after serving a sequence of requests in order. -/
def serve : List (Env × Request) → Store → Store
  | [], data => data
  | (env, r) :: rest, data => serve rest (handle env r data)

/-- Generated ids are distinct: whenever the sequence creates a challenge, the
id `uuidv4()` returns is not the id of a challenge already stored. -/
def distinctIds : List (Env × Request) → Store → Bool
  | [], _ => true
  | (env, r) :: rest, data =>
    (match r with
      | .createChallenge _ => data.challenges.all (fun c => c.id != env.uuid)
      | _ => true) && distinctIds rest (handle env r data)

/-- Serve `recordPenalty` for the same challenge and caller once per
environment; `none` as soon as one call is not answered with `res.json`. -/
def recordPenalties (id : String) (recordedBy : JVal) : List Env → Store → Option Store
  | [], data => some data
  | env :: rest, data =>
    match recordPenalty env id recordedBy data with
    | (.json _, saved) => recordPenalties id recordedBy rest saved
    | (.fail _ _, _) => none

/-- The sum of the amounts of a list of penalty events, as an integer. -/
def sumAmounts (ps : List Penalty) : Int :=
  (ps.map (fun p => toNumber p.amount)).sum

/-- Every `totalPenalty + penalty` that a `recordPenalty` of the sequence
answered with `res.json` computes lies within `±2^53`, where integers are
doubles. -/
def additionsExact : List (Env × Request) → Store → Bool
  | [], _ => true
  | (env, r) :: rest, data =>
    (match r with
      | .recordPenalty id recordedBy =>
        match data.challenges.find? (fun c => c.id == id) with
        | some c =>
          !(recordPenalty env id recordedBy data).1.isJson ||
            decide ((toNumber c.totalPenalty + toNumber c.penalty).natAbs ≤ 9007199254740992)
        | none => true
      | _ => true) && additionsExact rest (handle env r data)

/-- The requests of a sequence of `recordPenalty` calls on one challenge, each
call given by its environment and its `recordedBy`. -/
def penaltyCalls (id : String) (calls : List (Env × JVal)) : List (Env × Request) :=
  calls.map (fun call => (call.1, Request.recordPenalty id call.2))

/-- Each challenge's `totalPenalty` is the sum of the amounts of the stored
penalty events that carry its id. -/
def totalsMatch (data : Store) : Prop :=
  ∀ c ∈ data.challenges, c.totalPenalty = some (sumAmounts (listPenalties c.id data))

/-- Challenge ids are pairwise distinct, every penalty event refers to a stored
challenge, and the totals match the events. -/
def Consistent (data : Store) : Prop :=
  (data.challenges.map (fun c => c.id)).Nodup ∧
  (∀ p ∈ data.penalties, p.challengeId ∈ data.challenges.map (fun c => c.id)) ∧
  totalsMatch data

/-- Progress of a challenge counted from `0` towards a duration that is not
negative: between `0` and `2^53`, and at most the duration. -/
def withinDuration (c : Challenge) : Prop :=
  0 ≤ c.progress ∧ c.progress ≤ 9007199254740992 ∧
  c.progress ≤ toNumber c.duration ∧ 0 ≤ toNumber c.duration

/-! ## Sample data -/

/-- An environment in which the write succeeds. -/
def envOk (uuid : String) : Env :=
  { uuid := uuid, now := "2024-01-01T00:00:00.000Z", writeOk := true,
    bcryptHash := fun _ => some "$2a$10$hash" }

/-- A registered user other than `u1`. -/
def userSara : User :=
  { id := "u2", name := .str "Sara", email := .str "s@x.com", password := "$2a$10$hash" }

/-- A challenge of `u1` whose stored progress is already beyond its duration. -/
def overshotChallenge : Challenge :=
  { id := "c1", userId := .str "u1", title := .str "run", description := .str "",
    duration := some 5, penalty := some 10000, charityId := .str "charity1",
    progress := 7, totalPenalty := some 20000, witnesses := [],
    createdAt := "2024-01-01T00:00:00.000Z" }

/-- A document holding `overshotChallenge`, two users and two penalty events. -/
def overshotStore : Store :=
  { defaultData with
    users :=
      [ { id := "u1", name := .str "Ali", email := .str "a@x.com", password := "$2a$10$hash" },
        userSara ]
    challenges := [overshotChallenge]
    penalties :=
      [ { id := "p1", challengeId := "c1", date := "2024-01-01T00:00:00.000Z",
          amount := some 10000, recordedBy := .str "u1" },
        { id := "p2", challengeId := "c9", date := "2024-01-01T00:00:00.000Z",
          amount := some 500, recordedBy := .str "u7" },
        { id := "p3", challengeId := "c1", date := "2024-01-02T00:00:00.000Z",
          amount := some 10000, recordedBy := .str "u1" } ] }

/-- The document after registering Ali in the default document. -/
def aliStore : Store :=
  (register (envOk "u-ali") (.str "Ali") (.str "a@x.com") (.str "secret123") defaultData).2

/-- Body of Ali's `POST /challenges`: duration 5, penalty 10000, charity `charity1`. -/
def aliRequest : CreateRequest :=
  { userId := .str "u-ali", title := .str "no sugar", description := .undefined,
    duration := .num 5, penalty := .num 10000, charityId := .str "charity1" }

/-- Register Ali, create his challenge, record two penalties as Ali. -/
def aliTrace : List (Env × Request) :=
  [ (envOk "u-ali", .register (.str "Ali") (.str "a@x.com") (.str "secret123")),
    (envOk "c-1", .createChallenge aliRequest),
    (envOk "p-1", .recordPenalty "c-1" (.str "u-ali")),
    (envOk "p-2", .recordPenalty "c-1" (.str "u-ali")) ]

/-- Ali's challenge after `aliTrace`. -/
def aliChallengeAfterTrace : Challenge :=
  { id := "c-1", userId := .str "u-ali", title := .str "no sugar", description := .str "",
    duration := some 5, penalty := some 10000, charityId := .str "charity1",
    progress := 2, totalPenalty := some 20000, witnesses := [],
    createdAt := "2024-01-01T00:00:00.000Z" }

/-- Ali's request with a negative duration; every required field is truthy. -/
def negativeDurationRequest : CreateRequest :=
  { aliRequest with duration := .num (-5) }

/-- Ali's request with penalty `2^53 - 1`, the largest odd double. -/
def largePenaltyRequest : CreateRequest :=
  { aliRequest with penalty := .num 9007199254740991 }

/-- Ali's request with the penalty written as `1` followed by 308 zeros. -/
def hugePenaltyRequest : CreateRequest :=
  { aliRequest with penalty := .str "100000000000000000000000000000000000000000000000000000000000000000000000000000000000000000000000000000000000000000000000000000000000000000000000000000000000000000000000000000000000000000000000000000000000000000000000000000000000000000000000000000000000000000000000000000000000000000000000000000000000000000000" }

/-- Register Ali, create a challenge with penalty `10^308`, record two
penalties as Ali. -/
def hugePenaltyTrace : List (Env × Request) :=
  [ (envOk "u-ali", .register (.str "Ali") (.str "a@x.com") (.str "secret123")),
    (envOk "c-1", .createChallenge hugePenaltyRequest),
    (envOk "p-1", .recordPenalty "c-1" (.str "u-ali")),
    (envOk "p-2", .recordPenalty "c-1" (.str "u-ali")) ]

/-- Register Ali, create a challenge with penalty `2^53 - 1`, record three
penalties as Ali. -/
def largePenaltyTrace : List (Env × Request) :=
  [ (envOk "u-ali", .register (.str "Ali") (.str "a@x.com") (.str "secret123")),
    (envOk "c-1", .createChallenge largePenaltyRequest),
    (envOk "p-1", .recordPenalty "c-1" (.str "u-ali")),
    (envOk "p-2", .recordPenalty "c-1" (.str "u-ali")),
    (envOk "p-3", .recordPenalty "c-1" (.str "u-ali")) ]

/-- Ali's challenge after `largePenaltyTrace`. -/
def largePenaltyChallenge : Challenge :=
  { id := "c-1", userId := .str "u-ali", title := .str "no sugar", description := .str "",
    duration := some 5, penalty := some 9007199254740991, charityId := .str "charity1",
    progress := 3, totalPenalty := some 27021597764222972, witnesses := [],
    createdAt := "2024-01-01T00:00:00.000Z" }


/-! ## Basic facts -/

theorem parseInt_samples :
    parseInt (.str "  42abc") = some 42 ∧ parseInt (.str "-0x1F") = some (-31) ∧
    parseInt (.str "abc") = none ∧ parseInt (.str "+7.9") = some 7 ∧
    parseInt (.num (-5)) = some (-5) ∧ parseInt (.bool true) = none ∧
    parseInt (.str "9007199254740993") = some 9007199254740992 ∧
    parseInt (.num 1000000000000000000000) = some 1 ∧
    parseInt (.str "1000000000000000000000") = some 1000000000000000000000 := by
  decide

theorem roundDouble_samples :
    roundDouble 9007199254740993 = some 9007199254740992 ∧
    roundDouble 9007199254740995 = some 9007199254740996 ∧
    roundDouble (-9007199254740993) = some (-9007199254740992) ∧
    roundDouble 27021597764222973 = some 27021597764222972 ∧
    roundDouble 100000000000000000000000 = some 99999999999999991611392 := by
  decide

set_option maxRecDepth 100000 in
/-- A total that overflows is stored as `null`: with penalty `10^308` the
second addition is `Infinity`, while both events keep a finite amount. -/
theorem totalPenalty_overflow_sample :
    (serve hugePenaltyTrace defaultData).challenges.map (fun c => c.totalPenalty) = [none] ∧
    (listPenalties "c-1" (serve hugePenaltyTrace defaultData)).map
      (fun p => p.amount.isSome) = [true, true] := by
  decide

/-- Integers of magnitude at most `2^53` are doubles. -/
theorem roundDouble_exact (x : Int) (h : x.natAbs ≤ 9007199254740992) :
    roundDouble x = some x := by
  unfold roundDouble roundNat
  rw [if_pos h]
  show some (if x < 0 then -((x.natAbs : Nat) : Int) else ((x.natAbs : Nat) : Int)) = some x
  congr 1
  split <;> omega

/-- A number of magnitude at most `2^53` parses to itself. -/
theorem parseInt_num_exact (n : Int) (h : n.natAbs ≤ 9007199254740992) :
    parseInt (.num n) = some n := by
  simp only [parseInt, parseIntNumber, roundDouble_exact n h]
  rw [if_pos (by omega)]

theorem jsAdd_exact (a b : Int) (h : (a + b).natAbs ≤ 9007199254740992) :
    jsAdd a b = some (a + b) :=
  roundDouble_exact (a + b) h

theorem mathMin_le (a : Option Int) (b : Int) : mathMin a b ≤ b := by
  unfold mathMin
  split
  · exact min_le_right _ _
  · exact le_refl b

/-- Adding `1` to a count between `0` and `2^53` never lowers it: below `2^53`
the sum is exact, and `2^53 + 1` rounds to `2^53`. -/
theorem jsAdd_one_ge (a : Int) (h0 : 0 ≤ a) (h1 : a ≤ 9007199254740992) :
    ∃ y, jsAdd a 1 = some y ∧ a ≤ y ∧ y ≤ a + 1 ∧ y ≤ 9007199254740992 := by
  by_cases h : a = 9007199254740992
  · subst h
    exact ⟨9007199254740992, by decide, by decide, by decide, by decide⟩
  · exact ⟨a + 1, jsAdd_exact a 1 (by omega), by omega, le_refl _, by omega⟩

theorem writeData_eq_some (env : Env) (data saved : Store) :
    writeData env data = some saved ↔ env.writeOk = true ∧ saved = data := by
  unfold writeData
  cases env.writeOk
  · simp
  · constructor
    · intro h
      exact ⟨rfl, (Option.some.inj h).symm⟩
    · rintro ⟨-, rfl⟩
      rfl

theorem writeData_eq_none (env : Env) (data : Store) :
    writeData env data = none ↔ env.writeOk = false := by
  unfold writeData
  cases env.writeOk <;> simp

theorem updateFirst_of_find_none {α : Type} (q : α → Bool) (f : α → α) (l : List α)
    (h : l.find? q = none) : updateFirst q f l = l := by
  induction l with
  | nil => rfl
  | cons x xs ih =>
    by_cases hx : q x = true
    · simp [List.find?, hx] at h
    · simp only [Bool.not_eq_true] at hx
      simp only [List.find?, hx] at h
      simp [updateFirst, hx, ih h]

theorem updateFirst_split {α : Type} (q : α → Bool) (f : α → α) (l : List α) (c : α)
    (h : l.find? q = some c) :
    ∃ pre post, l = pre ++ c :: post ∧ (∀ x ∈ pre, q x = false) ∧ q c = true ∧
      updateFirst q f l = pre ++ f c :: post := by
  induction l with
  | nil => simp at h
  | cons x xs ih =>
    by_cases hx : q x = true
    · simp only [List.find?, hx, Option.some.injEq] at h
      subst h
      exact ⟨[], xs, rfl, by simp, hx, by simp [updateFirst, hx]⟩
    · simp only [Bool.not_eq_true] at hx
      simp only [List.find?, hx] at h
      obtain ⟨pre, post, h1, h2, h3, h4⟩ := ih h
      refine ⟨x :: pre, post, by simp [h1], ?_, h3, by simp [updateFirst, hx, h4]⟩
      intro y hy
      rcases List.mem_cons.mp hy with rfl | hy
      · exact hx
      · exact h2 y hy

theorem find_updateFirst_same {α : Type} (q : α → Bool) (f : α → α) (l : List α)
    (hf : ∀ x, q x = true → q (f x) = true) :
    (updateFirst q f l).find? q = (l.find? q).map f := by
  induction l with
  | nil => rfl
  | cons x xs ih =>
    by_cases hx : q x = true
    · simp [updateFirst, List.find?, hx, hf x hx]
    · simp only [Bool.not_eq_true] at hx
      simp [updateFirst, List.find?, hx, ih]

/-! ## `recordPenalty` -/

theorem recordPenalty_not_found (env : Env) (id : String) (recordedBy : JVal) (data : Store)
    (h : data.challenges.find? (fun c => c.id == id) = none) :
    recordPenalty env id recordedBy data = (.fail 404 "چالش یافت نشد", data) := by
  simp only [recordPenalty, h]

theorem recordPenalty_forbidden (env : Env) (id : String) (recordedBy : JVal) (data : Store)
    (c0 : Challenge) (h : data.challenges.find? (fun c => c.id == id) = some c0)
    (hu : c0.userId ≠ recordedBy) (hw : recordedBy ∉ c0.witnesses) :
    recordPenalty env id recordedBy data =
      (.fail 403 "فقط مالک چالش یا شاهد می‌تواند جریمه ثبت کند", data) := by
  simp only [recordPenalty, h]
  rw [if_pos]
  simp [hu, hw]

theorem recordPenalty_write_failed (env : Env) (id : String) (recordedBy : JVal) (data : Store)
    (c0 : Challenge) (h : data.challenges.find? (fun c => c.id == id) = some c0)
    (hu : c0.userId = recordedBy ∨ recordedBy ∈ c0.witnesses) (hw : env.writeOk = false) :
    recordPenalty env id recordedBy data = (.fail 500 "خطا در ثبت جریمه", data) := by
  simp only [recordPenalty, h]
  rw [if_neg, (writeData_eq_none _ _).mpr hw]
  rcases hu with hu | hu <;> simp [hu]

theorem recordPenalty_success (env : Env) (id : String) (recordedBy : JVal) (data : Store)
    (c0 : Challenge) (h : data.challenges.find? (fun c => c.id == id) = some c0)
    (hu : c0.userId = recordedBy ∨ recordedBy ∈ c0.witnesses) (hw : env.writeOk = true) :
    recordPenalty env id recordedBy data =
      (.json (addPenaltyTo c0,
          { id := env.uuid, challengeId := id, date := env.now, amount := c0.penalty,
            recordedBy := recordedBy.orElse c0.userId }),
        { data with
          challenges := updateFirst (fun c => c.id == id) addPenaltyTo data.challenges
          penalties := data.penalties ++
            [{ id := env.uuid, challengeId := id, date := env.now, amount := c0.penalty,
               recordedBy := recordedBy.orElse c0.userId }] }) := by
  simp only [recordPenalty, h]
  rw [if_neg, (writeData_eq_some _ _ _).mpr ⟨hw, rfl⟩]
  · rfl
  · rcases hu with hu | hu <;> simp [hu]

/-- Every `res.json` answer of `recordPenalty` comes from the success path. -/
theorem recordPenalty_json_inv (env : Env) (id : String) (recordedBy : JVal) (data : Store)
    (body : Challenge × Penalty) (saved : Store)
    (h : recordPenalty env id recordedBy data = (.json body, saved)) :
    ∃ c0, data.challenges.find? (fun c => c.id == id) = some c0 ∧
      (c0.userId = recordedBy ∨ recordedBy ∈ c0.witnesses) ∧ env.writeOk = true ∧
      body.1 = addPenaltyTo c0 ∧
      body.2 = { id := env.uuid, challengeId := id, date := env.now, amount := c0.penalty,
                 recordedBy := recordedBy.orElse c0.userId } ∧
      saved = { data with
          challenges := updateFirst (fun c => c.id == id) addPenaltyTo data.challenges
          penalties := data.penalties ++ [body.2] } := by
  cases hf : data.challenges.find? (fun c => c.id == id) with
  | none => rw [recordPenalty_not_found env id recordedBy data hf] at h; cases h
  | some c0 =>
    by_cases hu : c0.userId = recordedBy ∨ recordedBy ∈ c0.witnesses
    · cases hw : env.writeOk with
      | false => rw [recordPenalty_write_failed env id recordedBy data c0 hf hu hw] at h; cases h
      | true =>
        rw [recordPenalty_success env id recordedBy data c0 hf hu hw] at h
        cases h
        exact ⟨c0, rfl, hu, rfl, rfl, rfl, rfl⟩
    · push_neg at hu
      rw [recordPenalty_forbidden env id recordedBy data c0 hf hu.1 hu.2] at h
      cases h

theorem addPenaltyTo_id (c : Challenge) : (addPenaltyTo c).id = c.id := rfl

theorem addPenaltyTo_progress_le (c : Challenge) :
    (addPenaltyTo c).progress ≤ toNumber (addPenaltyTo c).duration :=
  mathMin_le _ _

/-! ## `confirmPayment` -/

theorem confirmPayment_not_found (env : Env) (id : String) (userId : JVal) (data : Store)
    (h : data.challenges.find? (fun c => c.id == id && c.userId == userId) = none) :
    confirmPayment env id userId data = (.fail 404 "چالش یافت نشد یا دسترسی ندارید", data) := by
  simp only [confirmPayment, h]

theorem confirmPayment_write_failed (env : Env) (id : String) (userId : JVal) (data : Store)
    (c0 : Challenge)
    (h : data.challenges.find? (fun c => c.id == id && c.userId == userId) = some c0)
    (hw : env.writeOk = false) :
    confirmPayment env id userId data = (.fail 500 "خطا در تأیید پرداخت", data) := by
  simp only [confirmPayment, h]
  rw [(writeData_eq_none _ _).mpr hw]

theorem confirmPayment_success (env : Env) (id : String) (userId : JVal) (data : Store)
    (c0 : Challenge)
    (h : data.challenges.find? (fun c => c.id == id && c.userId == userId) = some c0)
    (hw : env.writeOk = true) :
    confirmPayment env id userId data =
      (.json (resetChallenge c0),
        { data with
          challenges :=
            updateFirst (fun c => c.id == id && c.userId == userId) resetChallenge
              data.challenges
          penalties := data.penalties.filter (fun p => p.challengeId != id) }) := by
  simp only [confirmPayment, h]
  rw [(writeData_eq_some _ _ _).mpr ⟨hw, rfl⟩]

/-- Every `res.json` answer of `confirmPayment` comes from the success path. -/
theorem confirmPayment_json_inv (env : Env) (id : String) (userId : JVal) (data : Store)
    (body : Challenge) (saved : Store)
    (h : confirmPayment env id userId data = (.json body, saved)) :
    ∃ c0, data.challenges.find? (fun c => c.id == id && c.userId == userId) = some c0 ∧
      env.writeOk = true ∧ body = resetChallenge c0 ∧
      saved = { data with
          challenges :=
            updateFirst (fun c => c.id == id && c.userId == userId) resetChallenge
              data.challenges
          penalties := data.penalties.filter (fun p => p.challengeId != id) } := by
  cases hf : data.challenges.find? (fun c => c.id == id && c.userId == userId) with
  | none => rw [confirmPayment_not_found env id userId data hf] at h; cases h
  | some c0 =>
    cases hw : env.writeOk with
    | false => rw [confirmPayment_write_failed env id userId data c0 hf hw] at h; cases h
    | true =>
      rw [confirmPayment_success env id userId data c0 hf hw] at h
      cases h
      exact ⟨c0, rfl, rfl, rfl, rfl⟩

theorem find_isSome_of_mem {α : Type} (q : α → Bool) (l : List α) (x : α) (hx : x ∈ l)
    (hq : q x = true) : ∃ y, l.find? q = some y := by
  cases h : l.find? q with
  | some y => exact ⟨y, rfl⟩
  | none =>
    rw [List.find?_eq_none] at h
    exact absurd hq (h x hx)

/-! ## `addWitness` -/

theorem addWitness_no_challenge (env : Env) (id : String) (witnessId : JVal) (data : Store)
    (h : data.challenges.find? (fun c => c.id == id) = none) :
    addWitness env id witnessId data = (.fail 404 "چالش یافت نشد", data) := by
  simp only [addWitness, h]

theorem addWitness_no_user (env : Env) (id : String) (witnessId : JVal) (data : Store)
    (c0 : Challenge) (h : data.challenges.find? (fun c => c.id == id) = some c0)
    (hu : data.users.find? (fun u => JVal.str u.id == witnessId) = none) :
    addWitness env id witnessId data = (.fail 404 "کاربر شاهد یافت نشد", data) := by
  simp only [addWitness, h, hu]

theorem addWitness_write_failed (env : Env) (id : String) (witnessId : JVal) (data : Store)
    (c0 : Challenge) (u0 : User) (h : data.challenges.find? (fun c => c.id == id) = some c0)
    (hu : data.users.find? (fun u => JVal.str u.id == witnessId) = some u0)
    (hw : env.writeOk = false) :
    addWitness env id witnessId data = (.fail 500 "خطا در اضافه کردن شاهد", data) := by
  simp only [addWitness, h, hu]
  rw [(writeData_eq_none _ _).mpr hw]

theorem addWitness_success (env : Env) (id : String) (witnessId : JVal) (data : Store)
    (c0 : Challenge) (u0 : User) (h : data.challenges.find? (fun c => c.id == id) = some c0)
    (hu : data.users.find? (fun u => JVal.str u.id == witnessId) = some u0)
    (hw : env.writeOk = true) :
    addWitness env id witnessId data =
      (.json (pushWitness witnessId c0),
        { data with
          challenges :=
            updateFirst (fun c => c.id == id) (pushWitness witnessId) data.challenges }) := by
  simp only [addWitness, h, hu]
  rw [(writeData_eq_some _ _ _).mpr ⟨hw, rfl⟩]

theorem pushWitness_id (w : JVal) (c : Challenge) : (pushWitness w c).id = c.id := by
  unfold pushWitness
  split <;> rfl

theorem pushWitness_userId (w : JVal) (c : Challenge) : (pushWitness w c).userId = c.userId := by
  unfold pushWitness
  split <;> rfl

theorem mem_pushWitness (w : JVal) (c : Challenge) : w ∈ (pushWitness w c).witnesses := by
  unfold pushWitness
  split
  · simp
  · simp_all

theorem pushWitness_of_mem (w : JVal) (c : Challenge) (h : w ∈ c.witnesses) :
    pushWitness w c = c := by
  unfold pushWitness
  simp [h]

theorem pushWitness_idem (w : JVal) (c : Challenge) :
    pushWitness w (pushWitness w c) = pushWitness w c :=
  pushWitness_of_mem w _ (mem_pushWitness w c)

theorem updateFirst_updateFirst {α : Type} (q : α → Bool) (f g : α → α) (l : List α)
    (hf : ∀ x, q x = true → q (f x) = true) :
    updateFirst q g (updateFirst q f l) = updateFirst q (fun x => g (f x)) l := by
  induction l with
  | nil => rfl
  | cons x xs ih =>
    by_cases hx : q x = true
    · simp [updateFirst, hx, hf x hx]
    · simp only [Bool.not_eq_true] at hx
      simp [updateFirst, hx, ih]

theorem count_pushWitness (w : JVal) (c : Challenge) :
    (pushWitness w c).witnesses.count w = max 1 (c.witnesses.count w) := by
  unfold pushWitness
  by_cases h : w ∈ c.witnesses
  · have hpos := List.count_pos_iff.mpr h
    rw [if_neg (by simp [h])]
    omega
  · simp [h, List.count_eq_zero_of_not_mem h]

/-! ## `createChallenge` -/

theorem createChallenge_rejected (env : Env) (req : CreateRequest) (data : Store)
    (h : (req.userId.truthy && req.title.truthy && req.duration.truthy &&
      req.penalty.truthy && req.charityId.truthy) = false) :
    createChallenge env req data = (.fail 400 "همه فیلدها الزامی است", data) := by
  unfold createChallenge
  rw [if_pos]
  revert h
  cases req.userId.truthy <;> cases req.title.truthy <;> cases req.duration.truthy <;>
    cases req.penalty.truthy <;> cases req.charityId.truthy <;> simp

theorem createChallenge_accepted (env : Env) (req : CreateRequest) (data : Store)
    (h : (req.userId.truthy && req.title.truthy && req.duration.truthy &&
      req.penalty.truthy && req.charityId.truthy) = true) :
    createChallenge env req data =
      if env.writeOk = true then
        (.json (newChallenge env req),
          { data with challenges := data.challenges ++ [newChallenge env req] })
      else (.fail 500 "خطا در ایجاد چالش", data) := by
  unfold createChallenge writeData
  simp only [Bool.and_eq_true] at h
  obtain ⟨⟨⟨⟨a, b⟩, c⟩, d⟩, e⟩ := h
  rw [if_neg (by simp [a, b, c, d, e])]
  cases env.writeOk <;> rfl

theorem find_append_fresh {α : Type} (q : α → Bool) (l : List α) (x : α)
    (hl : ∀ y ∈ l, q y = false) (hx : q x = true) : (l ++ [x]).find? q = some x := by
  induction l with
  | nil => simp [List.find?, hx]
  | cons y ys ih =>
    have hy := hl y (List.mem_cons_self _ _)
    simp only [List.cons_append, List.find?, hy]
    exact ih (fun z hz => hl z (List.mem_cons_of_mem _ hz))

/-- Effect of a run of authorised `recordPenalty` calls on one challenge while
the count and the total stay within `2^53`. -/
theorem recordPenalties_effect (id : String) (owner : JVal) (d p : Int) (hd0 : 0 ≤ d)
    (hp0 : 0 ≤ p) (envs : List Env) :
    ∀ (data : Store) (c : Challenge) (t : Int),
      data.challenges.find? (fun x => x.id == id) = some c → c.userId = owner →
      c.duration = some d → c.penalty = some p → c.totalPenalty = some t →
      0 ≤ c.progress → c.progress ≤ d → c.progress + envs.length ≤ 9007199254740992 →
      0 ≤ t → t + envs.length * p ≤ 9007199254740992 →
      (∀ e ∈ envs, e.writeOk = true) →
      ∃ final c1, recordPenalties id owner envs data = some final ∧
        final.challenges.find? (fun x => x.id == id) = some c1 ∧
        c1.progress = min (c.progress + envs.length) d ∧
        c1.totalPenalty = some (t + envs.length * p) ∧
        (listPenalties id final).length = (listPenalties id data).length + envs.length ∧
        ((∀ e ∈ listPenalties id data, e.amount = some p) →
          ∀ e ∈ listPenalties id final, e.amount = some p) := by
  induction envs with
  | nil =>
    intro data c t hf _ _ _ ht _ hle _ _ _ _
    exact ⟨data, c, rfl, hf, by simp [hle], by simp [ht], by simp, fun h => h⟩
  | cons env rest ih =>
    intro data c t hf hu hd hp ht hc0 hle hcn ht0 htn hws
    have hw := hws env (List.mem_cons_self _ _)
    have hstep := recordPenalty_success env id owner data c hf (Or.inl hu) hw
    have hfind : (updateFirst (fun x => x.id == id) addPenaltyTo data.challenges).find?
        (fun x => x.id == id) = some (addPenaltyTo c) := by
      rw [find_updateFirst_same _ _ _ (fun x hx => by simpa [addPenaltyTo_id] using hx), hf]
      rfl
    simp only [List.length_cons, Nat.cast_add, Nat.cast_one] at hcn htn
    have hrp : 0 ≤ (rest.length : Int) * p := mul_nonneg (by omega) hp0
    have hprog : (addPenaltyTo c).progress = min (c.progress + 1) d := by
      simp only [addPenaltyTo, hd, toNumber, jsAdd_exact c.progress 1 (by omega), mathMin]
    have htot : (addPenaltyTo c).totalPenalty = some (t + p) := by
      simp only [addPenaltyTo, hp, ht, toNumber]
      exact jsAdd_exact t p (by
        have : (rest.length + 1 : Int) * p = rest.length * p + p := by ring
        omega)
    obtain ⟨final, c1, h1, h2, h3, h4, h5, h6⟩ := ih
      { data with
        challenges := updateFirst (fun c => c.id == id) addPenaltyTo data.challenges
        penalties := data.penalties ++
          [{ id := env.uuid, challengeId := id, date := env.now, amount := c.penalty,
             recordedBy := owner.orElse c.userId }] }
      (addPenaltyTo c) (t + p) hfind hu hd hp htot
      (by rw [hprog]; exact le_min (by omega) hd0)
      (by rw [hprog]; exact min_le_right _ _)
      (by rw [hprog]; have := min_le_left (c.progress + 1) d; omega)
      (by omega)
      (by
        have : (rest.length + 1 : Int) * p = rest.length * p + p := by ring
        omega)
      (fun e he => hws e (List.mem_cons_of_mem _ he))
    refine ⟨final, c1, ?_, h2, ?_, ?_, ?_, ?_⟩
    · simp only [recordPenalties, hstep]
      exact h1
    · rw [h3, hprog]
      simp only [List.length_cons, Nat.cast_add, Nat.cast_one]
      omega
    · rw [h4]
      simp only [List.length_cons, Nat.cast_add, Nat.cast_one]
      congr 1
      ring
    · rw [h5]
      simp [listPenalties, List.filter_append]
      omega
    · intro hall
      apply h6
      intro e he
      simp only [listPenalties, List.filter_append, List.mem_append, List.mem_filter,
        List.mem_singleton, beq_iff_eq] at he
      rcases he with he | ⟨rfl, -⟩
      · exact hall e (by simpa [listPenalties] using he)
      · exact hp

/-! ## The users collection only grows -/

theorem createChallenge_users (env : Env) (req : CreateRequest) (data : Store) :
    (createChallenge env req data).2.users = data.users := by
  unfold createChallenge writeData
  repeat (first | rfl | split)

theorem recordPenalty_users (env : Env) (id : String) (recordedBy : JVal) (data : Store) :
    (recordPenalty env id recordedBy data).2.users = data.users := by
  unfold recordPenalty writeData
  repeat (first | rfl | split)

theorem confirmPayment_users (env : Env) (id : String) (userId : JVal) (data : Store) :
    (confirmPayment env id userId data).2.users = data.users := by
  unfold confirmPayment writeData
  repeat (first | rfl | split)

theorem addWitness_users (env : Env) (id : String) (witnessId : JVal) (data : Store) :
    (addWitness env id witnessId data).2.users = data.users := by
  unfold addWitness writeData
  repeat (first | rfl | split)

theorem invite_users (env : Env) (a b c : JVal) (data : Store) :
    (invite env a b c data).2.users = data.users := by
  unfold invite writeData
  cases env.writeOk <;> simp only [Bool.false_eq_true, if_false, if_true] <;>
    repeat (first | rfl | split)

theorem register_users (env : Env) (name email password : JVal) (data : Store) :
    ∀ u ∈ data.users, u ∈ (register env name email password data).2.users := by
  intro u hu
  unfold register writeData
  repeat (first | exact hu | exact List.mem_append_left _ hu | split)

theorem handle_users (env : Env) (r : Request) (data : Store) :
    ∀ u ∈ data.users, u ∈ (handle env r data).users := by
  intro u hu
  cases r with
  | register name email password => exact register_users env name email password data u hu
  | createChallenge req => simpa [handle, createChallenge_users] using hu
  | recordPenalty id recordedBy => simpa [handle, recordPenalty_users] using hu
  | confirmPayment id userId => simpa [handle, confirmPayment_users] using hu
  | addWitness id witnessId => simpa [handle, addWitness_users] using hu
  | invite a b c => simpa [handle, invite_users] using hu

theorem serve_users (steps : List (Env × Request)) :
    ∀ (data : Store), ∀ u ∈ data.users, u ∈ (serve steps data).users := by
  induction steps with
  | nil => intro data u hu; exact hu
  | cons step rest ih =>
    intro data u hu
    obtain ⟨env, r⟩ := step
    exact ih _ u (handle_users env r data u hu)

/-- A successful registration stores a user with the given email. -/
theorem register_json_inv (env : Env) (name email password : JVal) (data : Store)
    (body : PublicUser) (saved : Store)
    (h : register env name email password data = (.json body, saved)) :
    ∃ u ∈ saved.users, u.email = email ∧ u.id = env.uuid ∧
      saved.users = data.users ++ [u] ∧ email.truthy = true ∧
      data.users.find? (fun u => u.email == email) = none := by
  have he : email.truthy = true := by
    cases hte : email.truthy
    · simp [register, hte] at h
    · rfl
  cases hfind : data.users.find? (fun u => u.email == email) with
  | some u0 =>
    unfold register at h
    simp only [hfind] at h
    split at h <;> cases h
  | none =>
    unfold register writeData at h
    simp only [hfind] at h
    split at h
    · cases h
    · cases hhash : env.bcryptHash password with
      | none => simp [hhash] at h
      | some hashed =>
        cases hw : env.writeOk with
        | false => simp [hhash, hw] at h
        | true =>
          simp only [hhash, hw, if_true, Prod.mk.injEq, Reply.json.injEq] at h
          obtain ⟨-, rfl⟩ := h
          exact ⟨_, by simp, rfl, rfl, rfl, he, rfl⟩

/-- A registration for an email some stored user already has is refused. -/
theorem register_conflict (env : Env) (name email password : JVal) (data : Store)
    (hn : name.truthy = true) (he : email.truthy = true) (hp : password.truthy = true)
    (u : User) (hu : u ∈ data.users) (hue : u.email = email) :
    register env name email password data = (.fail 400 "ایمیل قبلاً ثبت شده", data) := by
  obtain ⟨u1, hu1⟩ := find_isSome_of_mem (fun u => u.email == email) data.users u hu
    (by simp [hue])
  unfold register
  rw [if_neg (by simp [hn, he, hp])]
  simp only [hu1]

/-! ## Totals and events -/

theorem sumAmounts_nil : sumAmounts [] = 0 := rfl

theorem sumAmounts_append (ps qs : List Penalty) :
    sumAmounts (ps ++ qs) = sumAmounts ps + sumAmounts qs := by
  simp [sumAmounts]

theorem map_id_updateFirst (q : Challenge → Bool) (f : Challenge → Challenge)
    (l : List Challenge) (hf : ∀ x, (f x).id = x.id) :
    (updateFirst q f l).map (fun c => c.id) = l.map (fun c => c.id) := by
  induction l with
  | nil => rfl
  | cons x xs ih =>
    by_cases hx : q x = true
    · simp [updateFirst, hx, hf]
    · simp only [Bool.not_eq_true] at hx
      simp [updateFirst, hx, ih]

/-- Membership in a list whose first `q`-element was updated, when ids are
distinct: the updated element, or an untouched one with another id. -/
theorem mem_updateFirst_nodup (q : Challenge → Bool) (f : Challenge → Challenge)
    (l : List Challenge) (hn : (l.map (fun c => c.id)).Nodup) (c : Challenge)
    (hc : c ∈ updateFirst q f l) :
    l.find? q = none ∧ c ∈ l ∨
    ∃ c0, l.find? q = some c0 ∧ (c = f c0 ∨ (c ∈ l ∧ c.id ≠ c0.id)) := by
  cases hfind : l.find? q with
  | none =>
    left
    rw [updateFirst_of_find_none q f l hfind] at hc
    exact ⟨rfl, hc⟩
  | some c0 =>
    right
    refine ⟨c0, rfl, ?_⟩
    obtain ⟨pre, post, hl, -, -, hup⟩ := updateFirst_split q f l c0 hfind
    rw [hup] at hc
    subst hl
    simp only [List.map_append, List.map_cons] at hn
    have hn1 := (List.nodup_append.mp hn)
    have hn2 := List.nodup_cons.mp hn1.2.1
    rcases List.mem_append.mp hc with h | h
    · right
      refine ⟨List.mem_append_left _ h, ?_⟩
      intro heq
      exact hn1.2.2 (List.mem_map_of_mem _ h) (by rw [heq]; exact List.mem_cons_self _ _)
    · rcases List.mem_cons.mp h with h | h
      · exact Or.inl h
      · right
        refine ⟨List.mem_append_right _ (List.mem_cons_of_mem _ h), ?_⟩
        intro heq
        exact hn2.1 (by rw [← heq]; exact List.mem_map_of_mem _ h)

theorem consistent_of_eq (data saved : Store) (hc : saved.challenges = data.challenges)
    (hp : saved.penalties = data.penalties) (h : Consistent data) : Consistent saved := by
  unfold Consistent totalsMatch listPenalties at *
  rw [hc, hp]
  exact h

theorem register_challenges_penalties (env : Env) (name email password : JVal) (data : Store) :
    (register env name email password data).2.challenges = data.challenges ∧
    (register env name email password data).2.penalties = data.penalties := by
  unfold register writeData
  cases env.writeOk <;> simp only [Bool.false_eq_true, if_false, if_true] <;>
    repeat (first | exact ⟨rfl, rfl⟩ | split)

theorem invite_challenges_penalties (env : Env) (a b c : JVal) (data : Store) :
    (invite env a b c data).2.challenges = data.challenges ∧
    (invite env a b c data).2.penalties = data.penalties := by
  unfold invite writeData
  cases env.writeOk <;> simp only [Bool.false_eq_true, if_false, if_true] <;>
    repeat (first | exact ⟨rfl, rfl⟩ | split)

/-- The document `recordPenalty` leaves on disk. -/
theorem recordPenalty_store (env : Env) (id : String) (recordedBy : JVal) (data : Store) :
    (recordPenalty env id recordedBy data).2 = data ∨
    ∃ c0, data.challenges.find? (fun c => c.id == id) = some c0 ∧
      (recordPenalty env id recordedBy data).1.isJson = true ∧
      (recordPenalty env id recordedBy data).2 =
        { data with
          challenges := updateFirst (fun c => c.id == id) addPenaltyTo data.challenges
          penalties := data.penalties ++
            [{ id := env.uuid, challengeId := id, date := env.now, amount := c0.penalty,
               recordedBy := recordedBy.orElse c0.userId }] } := by
  cases hf : data.challenges.find? (fun c => c.id == id) with
  | none => left; rw [recordPenalty_not_found env id recordedBy data hf]
  | some c0 =>
    by_cases hu : c0.userId = recordedBy ∨ recordedBy ∈ c0.witnesses
    · cases hw : env.writeOk with
      | false => left; rw [recordPenalty_write_failed env id recordedBy data c0 hf hu hw]
      | true =>
        right
        exact ⟨c0, rfl, by rw [recordPenalty_success env id recordedBy data c0 hf hu hw]; rfl,
          by rw [recordPenalty_success env id recordedBy data c0 hf hu hw]⟩
    · push_neg at hu
      left
      rw [recordPenalty_forbidden env id recordedBy data c0 hf hu.1 hu.2]

/-- The document `confirmPayment` leaves on disk. -/
theorem confirmPayment_store (env : Env) (id : String) (userId : JVal) (data : Store) :
    (confirmPayment env id userId data).2 = data ∨
    ∃ c0, data.challenges.find? (fun c => c.id == id && c.userId == userId) = some c0 ∧
      (confirmPayment env id userId data).2 =
        { data with
          challenges :=
            updateFirst (fun c => c.id == id && c.userId == userId) resetChallenge
              data.challenges
          penalties := data.penalties.filter (fun p => p.challengeId != id) } := by
  cases hf : data.challenges.find? (fun c => c.id == id && c.userId == userId) with
  | none => left; rw [confirmPayment_not_found env id userId data hf]
  | some c0 =>
    cases hw : env.writeOk with
    | false => left; rw [confirmPayment_write_failed env id userId data c0 hf hw]
    | true =>
      right
      exact ⟨c0, rfl, by rw [confirmPayment_success env id userId data c0 hf hw]⟩

/-- The document `addWitness` leaves on disk. -/
theorem addWitness_store (env : Env) (id : String) (witnessId : JVal) (data : Store) :
    (addWitness env id witnessId data).2 = data ∨
    (addWitness env id witnessId data).2 =
      { data with
        challenges :=
          updateFirst (fun c => c.id == id) (pushWitness witnessId) data.challenges } := by
  cases hf : data.challenges.find? (fun c => c.id == id) with
  | none => left; rw [addWitness_no_challenge env id witnessId data hf]
  | some c0 =>
    cases hu : data.users.find? (fun u => JVal.str u.id == witnessId) with
    | none => left; rw [addWitness_no_user env id witnessId data c0 hf hu]
    | some u0 =>
      cases hw : env.writeOk with
      | false => left; rw [addWitness_write_failed env id witnessId data c0 u0 hf hu hw]
      | true => right; rw [addWitness_success env id witnessId data c0 u0 hf hu hw]

/-- The document `createChallenge` leaves on disk. -/
theorem createChallenge_store (env : Env) (req : CreateRequest) (data : Store) :
    (createChallenge env req data).2 = data ∨
    (createChallenge env req data).2 =
      { data with challenges := data.challenges ++ [newChallenge env req] } := by
  cases hacc : (req.userId.truthy && req.title.truthy && req.duration.truthy &&
      req.penalty.truthy && req.charityId.truthy) with
  | false => left; rw [createChallenge_rejected env req data hacc]
  | true =>
    rw [createChallenge_accepted env req data hacc]
    cases env.writeOk
    · left; rfl
    · right; rfl

theorem pushWitness_totalPenalty (w : JVal) (c : Challenge) :
    (pushWitness w c).totalPenalty = c.totalPenalty := by
  unfold pushWitness
  split <;> rfl

theorem consistent_addWitness (env : Env) (id : String) (witnessId : JVal) (data : Store)
    (h : Consistent data) : Consistent (addWitness env id witnessId data).2 := by
  rcases addWitness_store env id witnessId data with e | e <;> rw [e]
  · exact h
  · obtain ⟨hn, hp, ht⟩ := h
    have hmap := map_id_updateFirst (fun c => c.id == id) (pushWitness witnessId)
      data.challenges (pushWitness_id witnessId)
    refine ⟨by simpa [hmap] using hn, by simpa [hmap] using hp, ?_⟩
    intro c hc
    simp only at hc
    rcases mem_updateFirst_nodup _ _ _ hn c hc with ⟨-, hcl⟩ | ⟨c0, hf, rfl | ⟨hcl, -⟩⟩
    · exact ht c hcl
    · rw [pushWitness_totalPenalty, pushWitness_id]
      exact ht c0 (List.mem_of_find?_eq_some hf)
    · exact ht c hcl

theorem consistent_createChallenge (env : Env) (req : CreateRequest) (data : Store)
    (hfresh : ∀ c ∈ data.challenges, c.id ≠ env.uuid)
    (h : Consistent data) : Consistent (createChallenge env req data).2 := by
  rcases createChallenge_store env req data with e | e <;> rw [e]
  · exact h
  · obtain ⟨hn, hp, ht⟩ := h
    have hnot : env.uuid ∉ data.challenges.map (fun c => c.id) := by
      intro hm
      obtain ⟨c, hc, hce⟩ := List.mem_map.mp hm
      exact hfresh c hc hce
    refine ⟨?_, ?_, ?_⟩
    · simp only [List.map_append, List.map_cons, List.map_nil]
      rw [List.nodup_append]
      refine ⟨hn, List.nodup_singleton _, ?_⟩
      intro x hx hx1
      rw [List.mem_singleton] at hx1
      subst hx1
      exact hnot hx
    · intro p hpm
      simp only [List.map_append, List.mem_append]
      exact Or.inl (hp p hpm)
    · intro c hc
      simp only [List.mem_append, List.mem_singleton] at hc
      rcases hc with hc | rfl
      · exact ht c hc
      · have hnil : listPenalties (newChallenge env req).id
            { data with challenges := data.challenges ++ [newChallenge env req] } = [] := by
          simp only [listPenalties, List.filter_eq_nil_iff, beq_iff_eq]
          intro p hpm hpe
          apply hnot
          have := hp p hpm
          rwa [hpe] at this
        rw [hnil]
        rfl

theorem mem_updateFirst_found (q : Challenge → Bool) (f : Challenge → Challenge)
    (l : List Challenge) (hn : (l.map (fun c => c.id)).Nodup) (c c0 : Challenge)
    (hf : l.find? q = some c0) (hc : c ∈ updateFirst q f l) :
    c = f c0 ∨ (c ∈ l ∧ c.id ≠ c0.id) := by
  rcases mem_updateFirst_nodup q f l hn c hc with ⟨hnone, -⟩ | ⟨c1, hf1, h⟩
  · rw [hf] at hnone
    cases hnone
  · rw [hf] at hf1
    cases hf1
    exact h

theorem consistent_recordPenalty (env : Env) (id : String) (recordedBy : JVal) (data : Store)
    (hexact : ∀ c0, data.challenges.find? (fun c => c.id == id) = some c0 →
      (recordPenalty env id recordedBy data).1.isJson = true →
      (toNumber c0.totalPenalty + toNumber c0.penalty).natAbs ≤ 9007199254740992)
    (h : Consistent data) : Consistent (recordPenalty env id recordedBy data).2 := by
  rcases recordPenalty_store env id recordedBy data with e | ⟨c0, hf, hj, e⟩
  · rw [e]
    exact h
  · have hex := hexact c0 hf hj
    rw [e]
    obtain ⟨hn, hp, ht⟩ := h
    have hmap := map_id_updateFirst (fun c => c.id == id) addPenaltyTo
      data.challenges addPenaltyTo_id
    have hc0 : c0 ∈ data.challenges := List.mem_of_find?_eq_some hf
    have hid : c0.id = id := by simpa using List.find?_some hf
    refine ⟨by simpa [hmap] using hn, ?_, ?_⟩
    · intro p hpm
      simp only [hmap]
      simp only [List.mem_append, List.mem_singleton] at hpm
      rcases hpm with hpm | rfl
      · exact hp p hpm
      · exact List.mem_map.mpr ⟨c0, hc0, hid⟩
    · intro c hc
      simp only at hc
      rcases mem_updateFirst_found _ _ _ hn c c0 hf hc with rfl | ⟨hcl, hne⟩
      · have hl : listPenalties (addPenaltyTo c0).id
            { data with
              challenges := updateFirst (fun c => c.id == id) addPenaltyTo data.challenges
              penalties := data.penalties ++
                [{ id := env.uuid, challengeId := id, date := env.now, amount := c0.penalty,
                   recordedBy := recordedBy.orElse c0.userId }] } =
            listPenalties c0.id data ++
              [{ id := env.uuid, challengeId := id, date := env.now, amount := c0.penalty,
                 recordedBy := recordedBy.orElse c0.userId }] := by
          simp [listPenalties, List.filter_append, addPenaltyTo_id, hid]
        have ht0 := ht c0 hc0
        rw [hl, sumAmounts_append]
        simp only [addPenaltyTo]
        rw [jsAdd_exact _ _ hex, ht0]
        simp [sumAmounts, toNumber]
      · have hl : listPenalties c.id
            { data with
              challenges := updateFirst (fun c => c.id == id) addPenaltyTo data.challenges
              penalties := data.penalties ++
                [{ id := env.uuid, challengeId := id, date := env.now, amount := c0.penalty,
                   recordedBy := recordedBy.orElse c0.userId }] } =
            listPenalties c.id data := by
          have hne1 : ¬ id = c.id := fun hh => hne (by rw [hid, hh])
          simp [listPenalties, List.filter_append, hne1]
        rw [hl]
        exact ht c hcl

theorem consistent_confirmPayment (env : Env) (id : String) (userId : JVal) (data : Store)
    (h : Consistent data) : Consistent (confirmPayment env id userId data).2 := by
  rcases confirmPayment_store env id userId data with e | ⟨c0, hf, e⟩ <;> rw [e]
  · exact h
  · obtain ⟨hn, hp, ht⟩ := h
    have hmap := map_id_updateFirst (fun c => c.id == id && c.userId == userId) resetChallenge
      data.challenges (fun _ => rfl)
    have hid : c0.id = id := by
      have := List.find?_some hf
      simp only [Bool.and_eq_true, beq_iff_eq] at this
      exact this.1
    refine ⟨by simpa [hmap] using hn, ?_, ?_⟩
    · intro p hpm
      simp only [hmap]
      exact hp p (List.mem_of_mem_filter hpm)
    · intro c hc
      simp only at hc
      rcases mem_updateFirst_found _ _ _ hn c c0 hf hc with rfl | ⟨hcl, hne⟩
      · have hl : listPenalties (resetChallenge c0).id
            { data with
              challenges :=
                updateFirst (fun c => c.id == id && c.userId == userId) resetChallenge
                  data.challenges
              penalties := data.penalties.filter (fun p => p.challengeId != id) } = [] := by
          simp only [listPenalties, List.filter_filter, List.filter_eq_nil_iff]
          intro p _
          simp [resetChallenge, hid]
        rw [hl]
        rfl
      · have hl : listPenalties c.id
            { data with
              challenges :=
                updateFirst (fun c => c.id == id && c.userId == userId) resetChallenge
                  data.challenges
              penalties := data.penalties.filter (fun p => p.challengeId != id) } =
            listPenalties c.id data := by
          simp only [listPenalties, List.filter_filter]
          apply List.filter_congr
          intro p _
          by_cases hpc : p.challengeId = c.id
          · have : p.challengeId ≠ id := fun hh => hne (by rw [← hpc, hh, hid])
            simp [hpc, this]
            rw [← hpc]
            exact this
          · simp [hpc]
        rw [hl]
        exact ht c hcl

theorem consistent_handle (env : Env) (r : Request) (data : Store)
    (hfresh : ∀ req, r = .createChallenge req → ∀ c ∈ data.challenges, c.id ≠ env.uuid)
    (hexact : ∀ id recordedBy, r = .recordPenalty id recordedBy →
      ∀ c0, data.challenges.find? (fun c => c.id == id) = some c0 →
      (recordPenalty env id recordedBy data).1.isJson = true →
      (toNumber c0.totalPenalty + toNumber c0.penalty).natAbs ≤ 9007199254740992)
    (h : Consistent data) : Consistent (handle env r data) := by
  cases r with
  | register name email password =>
    have e := register_challenges_penalties env name email password data
    exact consistent_of_eq data _ e.1 e.2 h
  | createChallenge req => exact consistent_createChallenge env req data (hfresh req rfl) h
  | recordPenalty id recordedBy =>
    exact consistent_recordPenalty env id recordedBy data (hexact id recordedBy rfl) h
  | confirmPayment id userId => exact consistent_confirmPayment env id userId data h
  | addWitness id witnessId => exact consistent_addWitness env id witnessId data h
  | invite a b c =>
    have e := invite_challenges_penalties env a b c data
    exact consistent_of_eq data _ e.1 e.2 h

theorem consistent_serve (steps : List (Env × Request)) :
    ∀ data : Store, distinctIds steps data = true → additionsExact steps data = true →
      Consistent data → Consistent (serve steps data) := by
  induction steps with
  | nil => intro data _ _ h; exact h
  | cons step rest ih =>
    intro data hd hx h
    obtain ⟨env, r⟩ := step
    simp only [distinctIds, Bool.and_eq_true] at hd
    simp only [additionsExact, Bool.and_eq_true] at hx
    refine ih _ hd.2 hx.2 (consistent_handle env r data ?_ ?_ h)
    · intro req hr c hc
      subst hr
      have := hd.1
      simp only [List.all_eq_true, bne_iff_ne] at this
      exact this c hc
    · intro id recordedBy hr c0 hf hj
      subst hr
      have := hx.1
      simp only [hf, hj, Bool.not_true, Bool.false_or, decide_eq_true_eq] at this
      exact this

theorem consistent_defaultData : Consistent defaultData := by
  refine ⟨?_, ?_, ?_⟩
  · simp [defaultData]
  · intro p hp
    simp [defaultData] at hp
  · intro c hc
    simp [defaultData] at hc

/-! ## Progress stays within a non-negative duration -/

theorem find_updateFirst_preserved (P : Challenge → Prop) (id : String)
    (q : Challenge → Bool) (f : Challenge → Challenge)
    (hid : ∀ x, (f x).id = x.id) (hP : ∀ x, P x → P (f x)) (l : List Challenge) :
    (∃ c, l.find? (fun x => x.id == id) = some c ∧ P c) →
    ∃ c, (updateFirst q f l).find? (fun x => x.id == id) = some c ∧ P c := by
  induction l with
  | nil => intro h; exact h
  | cons x xs ih =>
    rintro ⟨c, hc, hpc⟩
    by_cases hx : (x.id == id) = true
    · simp only [List.find?, hx, Option.some.injEq] at hc
      subst hc
      by_cases hqx : q x = true
      · exact ⟨f x, by simp [updateFirst, hqx, List.find?, hid, hx], hP x hpc⟩
      · simp only [Bool.not_eq_true] at hqx
        exact ⟨x, by simp [updateFirst, hqx, List.find?, hx], hpc⟩
    · simp only [Bool.not_eq_true] at hx
      simp only [List.find?, hx] at hc
      by_cases hqx : q x = true
      · exact ⟨c, by simp [updateFirst, hqx, List.find?, hid, hx, hc], hpc⟩
      · simp only [Bool.not_eq_true] at hqx
        obtain ⟨c1, hc1, hp1⟩ := ih ⟨c, hc, hpc⟩
        exact ⟨c1, by simp [updateFirst, hqx, List.find?, hx, hc1], hp1⟩

/-- A penalty keeps the progress within the duration and does not lower it. -/
theorem addPenaltyTo_within (c : Challenge) (h : withinDuration c) :
    withinDuration (addPenaltyTo c) ∧ c.progress ≤ (addPenaltyTo c).progress := by
  obtain ⟨h0, h1, h2, h3⟩ := h
  obtain ⟨y, hy, hy1, hy2, hy3⟩ := jsAdd_one_ge c.progress h0 h1
  have hp : (addPenaltyTo c).progress = min y (toNumber c.duration) := by
    simp only [addPenaltyTo, hy, mathMin]
  refine ⟨⟨?_, ?_, ?_, h3⟩, ?_⟩
  · rw [hp]
    exact le_min (by omega) h3
  · rw [hp]
    exact (min_le_left _ _).trans hy3
  · rw [hp]
    exact min_le_right _ _
  · rw [hp]
    exact le_min hy1 h2

theorem addPenaltyTo_withinDuration (c : Challenge) (h : withinDuration c) :
    withinDuration (addPenaltyTo c) :=
  (addPenaltyTo_within c h).1

theorem resetChallenge_within (c : Challenge) (h : withinDuration c) :
    withinDuration (resetChallenge c) :=
  ⟨le_refl _, (by decide : (0 : Int) ≤ 9007199254740992), h.2.2.2, h.2.2.2⟩

theorem pushWitness_within (w : JVal) (c : Challenge) (h : withinDuration c) :
    withinDuration (pushWitness w c) := by
  unfold pushWitness
  split <;> exact h

theorem within_handle (id : String) (env : Env) (r : Request) (data : Store)
    (h : ∃ c, data.challenges.find? (fun x => x.id == id) = some c ∧ withinDuration c) :
    ∃ c, (handle env r data).challenges.find? (fun x => x.id == id) = some c ∧
      withinDuration c := by
  cases r with
  | register name email password =>
    simp only [handle, (register_challenges_penalties env name email password data).1]
    exact h
  | createChallenge req =>
    simp only [handle]
    rcases createChallenge_store env req data with e | e <;> rw [e]
    · exact h
    · obtain ⟨c, hc, hp⟩ := h
      exact ⟨c, by simp [List.find?_append, hc], hp⟩
  | recordPenalty id1 recordedBy =>
    simp only [handle]
    rcases recordPenalty_store env id1 recordedBy data with e | ⟨c0, -, -, e⟩ <;> rw [e]
    · exact h
    · exact find_updateFirst_preserved _ id _ _ addPenaltyTo_id addPenaltyTo_withinDuration _ h
  | confirmPayment id1 userId =>
    simp only [handle]
    rcases confirmPayment_store env id1 userId data with e | ⟨c0, -, e⟩ <;> rw [e]
    · exact h
    · exact find_updateFirst_preserved _ id _ resetChallenge (fun _ => rfl)
        resetChallenge_within _ h
  | addWitness id1 witnessId =>
    simp only [handle]
    rcases addWitness_store env id1 witnessId data with e | e <;> rw [e]
    · exact h
    · exact find_updateFirst_preserved _ id _ _ (pushWitness_id witnessId)
        (pushWitness_within witnessId) _ h
  | invite a b c =>
    simp only [handle, (invite_challenges_penalties env a b c data).1]
    exact h

theorem within_serve (id : String) (steps : List (Env × Request)) :
    ∀ data : Store,
      (∃ c, data.challenges.find? (fun x => x.id == id) = some c ∧ withinDuration c) →
      ∃ c, (serve steps data).challenges.find? (fun x => x.id == id) = some c ∧
        withinDuration c := by
  induction steps with
  | nil => intro data h; exact h
  | cons step rest ih =>
    intro data h
    obtain ⟨env, r⟩ := step
    exact ih _ (within_handle id env r data h)

/-- Every `res.json` answer of `createChallenge` comes from the success path. -/
theorem createChallenge_json_inv (env : Env) (req : CreateRequest) (data : Store)
    (body : Challenge) (saved : Store)
    (h : createChallenge env req data = (.json body, saved)) :
    body = newChallenge env req ∧
      saved = { data with challenges := data.challenges ++ [newChallenge env req] } := by
  cases hacc : (req.userId.truthy && req.title.truthy && req.duration.truthy &&
      req.penalty.truthy && req.charityId.truthy) with
  | false => rw [createChallenge_rejected env req data hacc] at h; cases h
  | true =>
    rw [createChallenge_accepted env req data hacc] at h
    cases hw : env.writeOk with
    | false => simp [hw] at h
    | true =>
      simp only [hw, if_true, Prod.mk.injEq, Reply.json.injEq] at h
      exact ⟨h.1.symm, h.2.symm⟩

/-! ## Profile counts -/

theorem length_filter_add_length_filter_not {α : Type} (q : α → Bool) (l : List α) :
    (l.filter q).length + (l.filter (fun x => !q x)).length = l.length := by
  induction l with
  | nil => rfl
  | cons x xs ih =>
    cases hx : q x <;> simp [List.filter, hx] <;> omega

/-- C1 (clamping): after any sequence of earlier `recordPenalty` calls on a
challenge, whatever the stored progress was, every call answered with
`res.json` returns, and leaves stored under that id, a challenge whose
progress is at most its duration. -/
theorem recordPenalty_clamps_progress (id : String) (calls : List (Env × JVal)) (data : Store)
    (env : Env) (recordedBy : JVal) (c : Challenge) (p : Penalty) (saved : Store)
    (h : recordPenalty env id recordedBy (serve (penaltyCalls id calls) data) =
      (.json (c, p), saved)) :
    c.progress ≤ toNumber c.duration ∧
      saved.challenges.find? (fun x => x.id == id) = some c := by
  obtain ⟨c0, hf, -, -, hc, -, hs⟩ := recordPenalty_json_inv _ _ _ _ _ _ h
  simp only at hc
  subst hc
  refine ⟨addPenaltyTo_progress_le c0, ?_⟩
  rw [hs]
  simp only
  rw [find_updateFirst_same _ _ _ (fun x hx => by simpa [addPenaltyTo_id] using hx), hf]
  rfl

theorem recordPenalty_clamps_progress_witness :
    ∃ c p saved,
      recordPenalty (envOk "p5") "c1" (.str "u1")
        (serve (penaltyCalls "c1" [(envOk "p4", .str "u1")]) overshotStore) =
        (.json (c, p), saved) ∧
      c.progress = 5 ∧ c.progress ≤ toNumber c.duration ∧
      saved.challenges.find? (fun x => x.id == "c1") = some c :=
  ⟨_, _, _, rfl, rfl,
    recordPenalty_clamps_progress "c1" [(envOk "p4", .str "u1")] overshotStore (envOk "p5")
      (.str "u1") _ _ _ rfl⟩

/-- C2 (confirmPayment postcondition): when a challenge with the given id owned
by `userId` is stored and the write succeeds, `confirmPayment` answers with a
challenge whose `totalPenalty` and `progress` are `0`, that challenge is the
one then stored for this id and owner, and afterwards `listPenalties` for that
id is empty and no stored penalty event carries that id, whatever the
progress, total and events were before. -/
theorem confirmPayment_resets (env : Env) (id : String) (userId : JVal) (data : Store)
    (c : Challenge) (hc : c ∈ data.challenges) (hid : c.id = id) (howner : c.userId = userId)
    (hw : env.writeOk = true) :
    ∃ body saved, confirmPayment env id userId data = (.json body, saved) ∧
      body.totalPenalty = some 0 ∧ body.progress = 0 ∧ body.id = id ∧ body.userId = userId ∧
      listPenalties id saved = [] ∧ (∀ p ∈ saved.penalties, p.challengeId ≠ id) ∧
      saved.challenges.find? (fun x => x.id == id && x.userId == userId) = some body := by
  obtain ⟨c0, hf⟩ := find_isSome_of_mem (fun c => c.id == id && c.userId == userId)
    data.challenges c hc (by simp [hid, howner])
  have hq := List.find?_some hf
  simp only [Bool.and_eq_true, beq_iff_eq] at hq
  refine ⟨_, _, confirmPayment_success env id userId data c0 hf hw, rfl, rfl, hq.1, hq.2,
    ?_, ?_, ?_⟩
  · simp [listPenalties, List.filter_filter, List.filter_eq_nil_iff]
  · intro p hp
    simp only [List.mem_filter, bne_iff_ne] at hp
    exact hp.2
  · show (updateFirst (fun c => c.id == id && c.userId == userId) resetChallenge
      data.challenges).find? (fun x => x.id == id && x.userId == userId) = _
    rw [find_updateFirst_same _ _ _ (fun x hx => by simpa [resetChallenge] using hx), hf]
    rfl

theorem confirmPayment_resets_witness :
    ∃ body saved, confirmPayment (envOk "x") "c1" (.str "u1") overshotStore = (.json body, saved) ∧
      body.totalPenalty = some 0 ∧ body.progress = 0 ∧ body.id = "c1" ∧
      body.userId = .str "u1" ∧
      listPenalties "c1" saved = [] ∧ (∀ p ∈ saved.penalties, p.challengeId ≠ "c1") ∧
      saved.challenges.find? (fun x => x.id == "c1" && x.userId == JVal.str "u1") = some body :=
  confirmPayment_resets (envOk "x") "c1" (.str "u1") overshotStore overshotChallenge
    (by simp [overshotStore]) rfl rfl rfl

/-- C3 (recordPenalty authorization): when `find` returns a challenge for the
id and the write succeeds, `recordPenalty` is answered with `res.json` exactly
when `recordedBy` is the challenge's `userId` or one of its `witnesses`, and
with 403 otherwise.  In particular a registered user `u2` other than the owner
of a challenge without witnesses gets 403, and after `addWitness` for `u2` the
same call is answered with `res.json`. -/
theorem recordPenalty_authorization (env : Env) (id : String) (recordedBy : JVal) (data : Store)
    (c0 : Challenge) (hf : data.challenges.find? (fun c => c.id == id) = some c0)
    (hw : env.writeOk = true) :
    ((recordPenalty env id recordedBy data).1.isJson = true ↔
        (recordedBy = c0.userId ∨ recordedBy ∈ c0.witnesses)) ∧
    (¬ (recordedBy = c0.userId ∨ recordedBy ∈ c0.witnesses) →
        recordPenalty env id recordedBy data =
          (.fail 403 "فقط مالک چالش یا شاهد می‌تواند جریمه ثبت کند", data)) ∧
    (∀ (envW : Env) (u2 : User), u2 ∈ data.users → JVal.str u2.id ≠ c0.userId →
        c0.witnesses = [] → envW.writeOk = true →
        recordPenalty env id (.str u2.id) data =
          (.fail 403 "فقط مالک چالش یا شاهد می‌تواند جریمه ثبت کند", data) ∧
        (addWitness envW id (.str u2.id) data).1.isJson = true ∧
        (recordPenalty env id (.str u2.id) (addWitness envW id (.str u2.id) data).2).1.isJson
          = true) := by
  refine ⟨⟨?_, ?_⟩, ?_, ?_⟩
  · intro h
    by_contra hn
    push_neg at hn
    rw [recordPenalty_forbidden env id recordedBy data c0 hf (Ne.symm hn.1) hn.2] at h
    cases h
  · intro h
    rw [recordPenalty_success env id recordedBy data c0 hf (h.imp_left Eq.symm) hw]
    rfl
  · intro hn
    push_neg at hn
    exact recordPenalty_forbidden env id recordedBy data c0 hf (Ne.symm hn.1) hn.2
  · intro envW u2 hu2 hne hwit hwW
    obtain ⟨u0, hu0⟩ := find_isSome_of_mem (fun u => JVal.str u.id == JVal.str u2.id)
      data.users u2 hu2 (by simp)
    refine ⟨recordPenalty_forbidden env id _ data c0 hf (Ne.symm hne) (by simp [hwit]), ?_, ?_⟩
    · rw [addWitness_success envW id _ data c0 u0 hf hu0 hwW]
      rfl
    · rw [addWitness_success envW id _ data c0 u0 hf hu0 hwW]
      have hfind : (updateFirst (fun c => c.id == id) (pushWitness (.str u2.id))
          data.challenges).find? (fun c => c.id == id) = some (pushWitness (.str u2.id) c0) := by
        rw [find_updateFirst_same _ _ _ (fun x hx => by simpa [pushWitness_id] using hx), hf]
        rfl
      rw [recordPenalty_success env id _ _ _ hfind (Or.inr (mem_pushWitness _ _)) hw]
      rfl

theorem recordPenalty_authorization_witness :
    ((recordPenalty (envOk "p4") "c1" (.str "u2") overshotStore).1.isJson = true ↔
        (JVal.str "u2" = overshotChallenge.userId ∨ JVal.str "u2" ∈ overshotChallenge.witnesses)) ∧
    recordPenalty (envOk "p4") "c1" (.str "u2") overshotStore =
      (.fail 403 "فقط مالک چالش یا شاهد می‌تواند جریمه ثبت کند", overshotStore) ∧
    (addWitness (envOk "w") "c1" (.str "u2") overshotStore).1.isJson = true ∧
    (recordPenalty (envOk "p4") "c1" (.str "u2")
      (addWitness (envOk "w") "c1" (.str "u2") overshotStore).2).1.isJson = true :=
  have h := recordPenalty_authorization (envOk "p4") "c1" (.str "u2") overshotStore
    overshotChallenge rfl rfl
  ⟨h.1, h.2.1 (by decide),
    (h.2.2 (envOk "w") userSara (by simp [overshotStore]) (by decide) rfl rfl).2⟩

/-- C4 (addWitness idempotent): for a stored challenge and a registered user
`w`, with both writes succeeding, both calls are answered with `res.json`, the
document after the second call equals the document after the first, the
challenge then lists `w` once unless it listed it more often before, and
starting from no witnesses its witness list is `[w]`, of length 1. -/
theorem addWitness_idempotent (env1 env2 : Env) (id : String) (w : JVal) (data : Store)
    (c0 : Challenge) (u0 : User)
    (hf : data.challenges.find? (fun c => c.id == id) = some c0)
    (hu : u0 ∈ data.users) (hw : w = .str u0.id)
    (h1 : env1.writeOk = true) (h2 : env2.writeOk = true) :
    (addWitness env1 id w data).1.isJson = true ∧
    (addWitness env2 id w (addWitness env1 id w data).2).1.isJson = true ∧
    (addWitness env2 id w (addWitness env1 id w data).2).2 = (addWitness env1 id w data).2 ∧
    ∃ c2, (addWitness env2 id w (addWitness env1 id w data).2).2.challenges.find?
        (fun c => c.id == id) = some c2 ∧
      (addWitness env2 id w (addWitness env1 id w data).2).1 = .json c2 ∧
      c2.witnesses.count w = max 1 (c0.witnesses.count w) ∧
      (c0.witnesses = [] → c2.witnesses = [w] ∧ c2.witnesses.length = 1) := by
  subst hw
  obtain ⟨u1, hu1⟩ := find_isSome_of_mem (fun u => JVal.str u.id == JVal.str u0.id)
    data.users u0 hu (by simp)
  have hq : ∀ x : Challenge, (x.id == id) = true → ((pushWitness (.str u0.id) x).id == id) = true :=
    fun x hx => by simpa [pushWitness_id] using hx
  have hfind : (updateFirst (fun c => c.id == id) (pushWitness (.str u0.id))
      data.challenges).find? (fun c => c.id == id) = some (pushWitness (.str u0.id) c0) := by
    rw [find_updateFirst_same _ _ _ hq, hf]
    rfl
  have e2 := addWitness_success env2 id (.str u0.id)
    { data with
      challenges :=
        updateFirst (fun c => c.id == id) (pushWitness (.str u0.id)) data.challenges }
    (pushWitness (.str u0.id) c0) u1 hfind hu1 h2
  rw [addWitness_success env1 id _ data c0 u1 hf hu1 h1]
  simp only at e2 ⊢
  rw [e2]
  simp only [updateFirst_updateFirst _ _ _ _ hq, pushWitness_idem]
  refine ⟨?_, ?_, ?_, pushWitness (.str u0.id) c0, ?_, ?_, count_pushWitness _ _, ?_⟩
  · rfl
  · rfl
  · trivial
  · exact hfind
  · rfl
  · intro hnil
    simp [pushWitness, hnil]

theorem addWitness_idempotent_witness :
    (addWitness (envOk "a") "c1" (.str "u2") overshotStore).1.isJson = true ∧
    (addWitness (envOk "b") "c1" (.str "u2")
      (addWitness (envOk "a") "c1" (.str "u2") overshotStore).2).1.isJson = true ∧
    (addWitness (envOk "b") "c1" (.str "u2")
      (addWitness (envOk "a") "c1" (.str "u2") overshotStore).2).2 =
      (addWitness (envOk "a") "c1" (.str "u2") overshotStore).2 ∧
    ∃ c2, (addWitness (envOk "b") "c1" (.str "u2")
        (addWitness (envOk "a") "c1" (.str "u2") overshotStore).2).2.challenges.find?
        (fun c => c.id == "c1") = some c2 ∧
      (addWitness (envOk "b") "c1" (.str "u2")
        (addWitness (envOk "a") "c1" (.str "u2") overshotStore).2).1 = .json c2 ∧
      c2.witnesses.count (.str "u2") = max 1 (overshotChallenge.witnesses.count (.str "u2")) ∧
      (overshotChallenge.witnesses = [] →
        c2.witnesses = [.str "u2"] ∧ c2.witnesses.length = 1) :=
  addWitness_idempotent (envOk "a") (envOk "b") "c1" (.str "u2") overshotStore
    overshotChallenge userSara rfl (by simp [overshotStore]) rfl rfl rfl

/-- C5, counterexample: a challenge created with duration `5` and penalty
`2^53 - 1`; after three `recordPenalty` calls by its owner, all answered with
`res.json`, the stored `totalPenalty` is `27021597764222972`, the double
nearest to `3 * (2^53 - 1) = 27021597764222973`, and not that product. -/
theorem recordPenalty_total_rounded :
    ∃ created saved final c,
      createChallenge (envOk "c-1") largePenaltyRequest aliStore = (.json created, saved) ∧
      created.duration = some 5 ∧ created.penalty = some 9007199254740991 ∧
      recordPenalties "c-1" (.str "u-ali") [envOk "p-1", envOk "p-2", envOk "p-3"] saved =
        some final ∧
      final.challenges.find? (fun x => x.id == "c-1") = some c ∧
      c.totalPenalty = some 27021597764222972 ∧
      ¬ (c.totalPenalty = some (3 * 9007199254740991)) :=
  ⟨_, _, _, _, rfl, rfl, rfl, rfl, rfl, rfl, by decide⟩

/-- C5, amended: a challenge created under a fresh id whose duration and
penalty parse to `d ≥ 0` and `p > 0`, after `n` `recordPenalty` calls by its
owner with succeeding writes, where `n * p ≤ 2^53`, has all calls answered
with `res.json`, `progress = min n d` and `totalPenalty = n * p`, and
`listPenalties` returns `n` events for it, each of amount `p`. -/
theorem recordPenalty_accumulates (env : Env) (req : CreateRequest) (data : Store) (d p : Int)
    (envs : List Env)
    (hacc : (req.userId.truthy && req.title.truthy && req.duration.truthy &&
      req.penalty.truthy && req.charityId.truthy) = true)
    (hw : env.writeOk = true)
    (hd : parseInt req.duration = some d) (hp : parseInt req.penalty = some p) (hd0 : 0 ≤ d)
    (hp0 : 0 < p) (hbound : envs.length * p ≤ 9007199254740992)
    (hfresh : ∀ c ∈ data.challenges, c.id ≠ env.uuid)
    (hfreshP : ∀ q ∈ data.penalties, q.challengeId ≠ env.uuid)
    (hws : ∀ e ∈ envs, e.writeOk = true) :
    ∃ created saved final c,
      createChallenge env req data = (.json created, saved) ∧ created.id = env.uuid ∧
      created.progress = 0 ∧ created.totalPenalty = some 0 ∧
      recordPenalties env.uuid req.userId envs saved = some final ∧
      final.challenges.find? (fun x => x.id == env.uuid) = some c ∧
      c.progress = min (envs.length : Int) d ∧ c.totalPenalty = some (envs.length * p) ∧
      (listPenalties env.uuid final).length = envs.length ∧
      ∀ e ∈ listPenalties env.uuid final, e.amount = some p := by
  have hcreate := createChallenge_accepted env req data hacc
  rw [if_pos hw] at hcreate
  have hfind : (data.challenges ++ [newChallenge env req]).find?
      (fun x : Challenge => x.id == env.uuid) = some (newChallenge env req) :=
    find_append_fresh _ _ _ (fun y hy => by simpa using hfresh y hy) (by simp [newChallenge])
  have hnone : listPenalties env.uuid
      { data with challenges := data.challenges ++ [newChallenge env req] } = [] := by
    simp only [listPenalties, List.filter_eq_nil_iff, beq_iff_eq]
    exact fun q hq => hfreshP q hq
  have hn : (envs.length : Int) ≤ 9007199254740992 := by
    have h1 : (envs.length : Int) * 1 ≤ envs.length * p :=
      mul_le_mul_of_nonneg_left (by omega) (by omega)
    omega
  obtain ⟨final, c, h1, h2, h3, h4, h5, h6⟩ :=
    recordPenalties_effect env.uuid req.userId d p hd0 (le_of_lt hp0) envs
      { data with challenges := data.challenges ++ [newChallenge env req] }
      (newChallenge env req) 0 hfind rfl hd hp rfl (le_refl _) hd0
      (by simp only [newChallenge]; omega) (le_refl _) (by omega) hws
  refine ⟨_, _, final, c, hcreate, rfl, rfl, rfl, h1, h2, ?_, ?_, ?_, ?_⟩
  · rw [h3]
    simp [newChallenge]
  · rw [h4]
    simp
  · rw [h5, hnone]
    simp
  · apply h6
    rw [hnone]
    simp

theorem recordPenalty_accumulates_witness :
    ∃ created saved final c,
      createChallenge (envOk "c-1") aliRequest aliStore = (.json created, saved) ∧
      recordPenalties "c-1" (.str "u-ali") [envOk "p-1", envOk "p-2", envOk "p-3"] saved =
        some final ∧
      final.challenges.find? (fun x => x.id == "c-1") = some c ∧
      c.progress = 3 ∧ c.totalPenalty = some 30000 ∧
      (listPenalties "c-1" final).length = 3 ∧
      ∀ e ∈ listPenalties "c-1" final, e.amount = some 10000 := by
  obtain ⟨created, saved, final, c, h1, -, -, -, h2, h3, h4, h5, h6, h7⟩ :=
    recordPenalty_accumulates (envOk "c-1") aliRequest aliStore 5 10000
      [envOk "p-1", envOk "p-2", envOk "p-3"] (by decide) rfl rfl rfl (by decide)
      (by decide) (by decide) (by decide) (by decide) (by simp [envOk])
  exact ⟨created, saved, final, c, h1, h2, h3, by simpa using h4, by simpa using h5, h6, h7⟩

/-- C6 (duplicate registration): once `register` has been answered with
`res.json` for an email, then after any further sequence of requests every
`register` with that email and truthy name and password is answered with
400 "email already registered", and the document is left as it was. -/
theorem register_duplicate_email (env1 env2 : Env) (name1 name2 email pw1 pw2 : JVal)
    (data saved : Store) (body : PublicUser) (later : List (Env × Request))
    (h1 : register env1 name1 email pw1 data = (.json body, saved))
    (hn : name2.truthy = true) (hp : pw2.truthy = true) :
    register env2 name2 email pw2 (serve later saved) =
      (.fail 400 "ایمیل قبلاً ثبت شده", serve later saved) := by
  obtain ⟨u, hu, hue, -, -, he, -⟩ := register_json_inv env1 name1 email pw1 data body saved h1
  exact register_conflict env2 name2 email pw2 _ hn he hp u (serve_users later saved u hu) hue

theorem register_duplicate_email_witness :
    register (envOk "u-ali") (.str "Ali") (.str "a@x.com") (.str "secret123") defaultData =
      (.json { id := "u-ali", name := .str "Ali", email := .str "a@x.com" }, aliStore) ∧
    register (envOk "u-3") (.str "Reza") (.str "a@x.com") (.str "other-pass")
        (serve [(envOk "c-1", .createChallenge aliRequest)] aliStore) =
      (.fail 400 "ایمیل قبلاً ثبت شده", serve [(envOk "c-1", .createChallenge aliRequest)] aliStore) :=
  ⟨rfl, register_duplicate_email (envOk "u-ali") (envOk "u-3") (.str "Ali") (.str "Reza")
    (.str "a@x.com") (.str "secret123") (.str "other-pass") defaultData aliStore
    { id := "u-ali", name := .str "Ali", email := .str "a@x.com" }
    [(envOk "c-1", .createChallenge aliRequest)] rfl rfl rfl⟩

/-- C7, counterexample: from the default document, register, create a
challenge with penalty `2^53 - 1` and record three penalties; the stored
`totalPenalty` is `27021597764222972` while the amounts of its three stored
events sum to `27021597764222973`. -/
theorem totalPenalty_ne_sum_of_events :
    distinctIds largePenaltyTrace (readData none) = true ∧
    largePenaltyChallenge ∈ (serve largePenaltyTrace (readData none)).challenges ∧
    largePenaltyChallenge.totalPenalty = some 27021597764222972 ∧
    (listPenalties "c-1" (serve largePenaltyTrace (readData none))).map (fun p => p.amount) =
      [some 9007199254740991, some 9007199254740991, some 9007199254740991] ∧
    sumAmounts (listPenalties largePenaltyChallenge.id
      (serve largePenaltyTrace (readData none))) = 27021597764222973 ∧
    ¬ (largePenaltyChallenge.totalPenalty =
      some (sumAmounts (listPenalties largePenaltyChallenge.id
        (serve largePenaltyTrace (readData none))))) := by
  decide

/-- C7, amended: in every document reached from the default document (what
`readData` returns when there is no file) by any sequence of state-changing
requests (register, create, recordPenalty, confirmPayment, addWitness, invite)
in which each created challenge gets an id no stored challenge has and every
sum `totalPenalty + penalty` computed by a successful `recordPenalty` lies
within `±2^53`, every challenge's `totalPenalty` is a number and equals the
sum of the amounts of the stored penalty events carrying its id. -/
theorem totalPenalty_eq_sum_of_events (steps : List (Env × Request))
    (hd : distinctIds steps (readData none) = true)
    (hx : additionsExact steps (readData none) = true) (c : Challenge)
    (hc : c ∈ (serve steps (readData none)).challenges) :
    c.totalPenalty = some (sumAmounts (listPenalties c.id (serve steps (readData none)))) ∧
    c.totalPenalty =
      some (((serve steps (readData none)).penalties.filter
        (fun p => p.challengeId == c.id)).map (fun p => toNumber p.amount)).sum :=
  have h := (consistent_serve steps defaultData hd hx consistent_defaultData).2.2 c hc
  ⟨h, h⟩

theorem totalPenalty_eq_sum_of_events_witness :
    distinctIds aliTrace (readData none) = true ∧
    additionsExact aliTrace (readData none) = true ∧
    aliChallengeAfterTrace ∈ (serve aliTrace (readData none)).challenges ∧
    aliChallengeAfterTrace.totalPenalty = some 20000 ∧
    aliChallengeAfterTrace.totalPenalty =
      some (sumAmounts
        (listPenalties aliChallengeAfterTrace.id (serve aliTrace (readData none)))) ∧
    aliChallengeAfterTrace.totalPenalty =
      some (((serve aliTrace (readData none)).penalties.filter
        (fun p => p.challengeId == aliChallengeAfterTrace.id)).map
        (fun p => toNumber p.amount)).sum :=
  ⟨by decide, by decide, by decide, rfl,
    totalPenalty_eq_sum_of_events aliTrace (by decide) (by decide) aliChallengeAfterTrace
      (by decide)⟩

/-- C8, counterexample: `createChallenge` accepts a body whose duration is
`-5`; the stored challenge starts with progress `0`, and the owner's first
`recordPenalty`, answered with `res.json`, leaves progress `-5`. -/
theorem recordPenalty_progress_decreases :
    ∃ created saved c p saved2,
      createChallenge (envOk "c-1") negativeDurationRequest aliStore = (.json created, saved) ∧
      saved.challenges.find? (fun x => x.id == "c-1") = some created ∧
      recordPenalty (envOk "p-1") "c-1" (.str "u-ali") saved = (.json (c, p), saved2) ∧
      created.progress = 0 ∧ c.progress = -5 ∧ ¬ (c.progress ≥ created.progress) :=
  ⟨_, _, _, _, _, rfl, rfl, rfl, rfl, rfl, by decide⟩

/-- C8, amended: a challenge that `createChallenge` stores under an id no
stored challenge has, and whose parsed duration is not negative (`NaN`, stored
as `null`, reads as `0`), starts at progress `0`; after any further sequence
of requests, every `recordPenalty` on it answered with `res.json` leaves its
progress at least what it was before the call, and at most its duration. -/
theorem recordPenalty_progress_monotone (env : Env) (req : CreateRequest) (data : Store)
    (created : Challenge) (saved : Store) (later : List (Env × Request))
    (envP : Env) (recordedBy : JVal) (c : Challenge) (p : Penalty) (saved2 : Store)
    (hcreate : createChallenge env req data = (.json created, saved))
    (hfresh : ∀ x ∈ data.challenges, x.id ≠ env.uuid)
    (hdur : 0 ≤ toNumber (parseInt req.duration))
    (hcall : recordPenalty envP env.uuid recordedBy (serve later saved) = (.json (c, p), saved2)) :
    created.progress = 0 ∧
    ∃ before, (serve later saved).challenges.find? (fun x => x.id == env.uuid) = some before ∧
      before.progress ≤ c.progress ∧ c.progress ≤ toNumber c.duration := by
  obtain ⟨hbody, hsaved⟩ := createChallenge_json_inv env req data created saved hcreate
  subst hbody
  refine ⟨rfl, ?_⟩
  have h0 : ∃ c, saved.challenges.find? (fun x => x.id == env.uuid) = some c ∧
      withinDuration c := by
    refine ⟨newChallenge env req, ?_, le_refl _,
      (by decide : (0 : Int) ≤ 9007199254740992), hdur, hdur⟩
    rw [hsaved]
    exact find_append_fresh _ _ _ (fun y hy => by simpa using hfresh y hy)
      (by simp [newChallenge])
  obtain ⟨b, hb, hbw⟩ := within_serve env.uuid later saved h0
  obtain ⟨c0, hf, -, -, hc, -, -⟩ := recordPenalty_json_inv _ _ _ _ _ _ hcall
  rw [hb] at hf
  cases hf
  simp only at hc
  subst hc
  exact ⟨b, hb, (addPenaltyTo_within b hbw).2, addPenaltyTo_progress_le b⟩

theorem recordPenalty_progress_monotone_witness :
    ∃ created saved c p saved2,
      createChallenge (envOk "c-1") aliRequest aliStore = (.json created, saved) ∧
      recordPenalty (envOk "p-9") "c-1" (.str "u-ali")
        (serve [(envOk "p-1", .recordPenalty "c-1" (.str "u-ali")),
                (envOk "x", .confirmPayment "c-1" (.str "u-ali")),
                (envOk "p-2", .recordPenalty "c-1" (.str "u-ali"))] saved) =
        (.json (c, p), saved2) ∧
      created.progress = 0 ∧
      ∃ before,
        (serve [(envOk "p-1", .recordPenalty "c-1" (.str "u-ali")),
                (envOk "x", .confirmPayment "c-1" (.str "u-ali")),
                (envOk "p-2", .recordPenalty "c-1" (.str "u-ali"))] saved).challenges.find?
          (fun x => x.id == "c-1") = some before ∧
        before.progress ≤ c.progress ∧ c.progress ≤ toNumber c.duration :=
  ⟨_, _, _, _, _, rfl, rfl,
    recordPenalty_progress_monotone (envOk "c-1") aliRequest aliStore _ _
      [(envOk "p-1", .recordPenalty "c-1" (.str "u-ali")),
       (envOk "x", .confirmPayment "c-1" (.str "u-ali")),
       (envOk "p-2", .recordPenalty "c-1" (.str "u-ali"))]
      (envOk "p-9") (.str "u-ali") _ _ _ rfl (by decide) (by decide) rfl⟩

/-- C9 (confirmPayment frame): when `confirmPayment` is answered with
`res.json`, users, invitations and charities are unchanged; the challenge list
changes only at the first challenge with the given id and owner, which keeps
every field except `progress` and `totalPenalty`; and the penalty events with
another `challengeId` are kept, in the same order, nothing else being added.
When it is answered with 404 the document is unchanged. -/
theorem confirmPayment_frame (env : Env) (id : String) (userId : JVal) (data : Store) :
    (∀ body saved, confirmPayment env id userId data = (.json body, saved) →
      saved.users = data.users ∧ saved.invitations = data.invitations ∧
      saved.charities = data.charities ∧
      (∃ pre c0 post, data.challenges = pre ++ c0 :: post ∧
        saved.challenges = pre ++ body :: post ∧
        (∀ x ∈ pre, ¬ (x.id = id ∧ x.userId = userId)) ∧ c0.id = id ∧ c0.userId = userId ∧
        body = { c0 with progress := 0, totalPenalty := some 0 }) ∧
      saved.penalties.filter (fun p => p.challengeId != id) =
        data.penalties.filter (fun p => p.challengeId != id) ∧
      saved.penalties.Sublist data.penalties ∧
      (∀ p ∈ data.penalties, p.challengeId ≠ id → p ∈ saved.penalties)) ∧
    (∀ message saved, confirmPayment env id userId data = (.fail 404 message, saved) →
      saved = data) := by
  constructor
  · intro body saved h
    obtain ⟨c0, hf, -, hbody, hsaved⟩ := confirmPayment_json_inv env id userId data body saved h
    obtain ⟨pre, post, h1, h2, h3, h4⟩ :=
      updateFirst_split (fun c => c.id == id && c.userId == userId) resetChallenge
        data.challenges c0 hf
    simp only [Bool.and_eq_true, beq_iff_eq] at h3
    subst hsaved hbody
    refine ⟨rfl, rfl, rfl, ⟨pre, c0, post, h1, h4, ?_, h3.1, h3.2, rfl⟩, ?_, ?_, ?_⟩
    · intro x hx hq
      have := h2 x hx
      simp [hq.1, hq.2] at this
    · simp [List.filter_filter]
    · exact List.filter_sublist _
    · intro p hp hne
      simp [List.mem_filter, hp, hne]
  · intro message saved h
    rcases confirmPayment_store env id userId data with e | ⟨c0, hf, -⟩
    · rw [h] at e
      exact e
    · cases hw : env.writeOk with
      | false => rw [confirmPayment_write_failed env id userId data c0 hf hw] at h; cases h
      | true => rw [confirmPayment_success env id userId data c0 hf hw] at h; cases h

theorem confirmPayment_frame_witness :
    (∃ body saved, confirmPayment (envOk "x") "c1" (.str "u1") overshotStore = (.json body, saved) ∧
      saved.users = overshotStore.users ∧ saved.invitations = overshotStore.invitations ∧
      saved.charities = overshotStore.charities ∧
      saved.challenges = [{ overshotChallenge with progress := 0, totalPenalty := some 0 }] ∧
      saved.penalties.map (fun p => p.id) = ["p2"] ∧
      saved.penalties.Sublist overshotStore.penalties) ∧
    (∃ saved, confirmPayment (envOk "x") "c1" (.str "u2") overshotStore =
        (.fail 404 "چالش یافت نشد یا دسترسی ندارید", saved) ∧ saved = overshotStore) :=
  have h := confirmPayment_frame (envOk "x") "c1" (.str "u1") overshotStore
  have h2 := confirmPayment_frame (envOk "x") "c1" (.str "u2") overshotStore
  ⟨⟨_, _, rfl, (h.1 _ _ rfl).1, (h.1 _ _ rfl).2.1, (h.1 _ _ rfl).2.2.1, rfl, rfl,
      (h.1 _ _ rfl).2.2.2.2.2.1⟩,
    ⟨_, rfl, h2.2 _ _ rfl⟩⟩

/-- C10 (profile counts): `activeChallenges + completedChallenges` equals
`totalChallenges`, which is the number of stored challenges whose `userId` is
the given user; challenges the user only witnesses are listed by
`GET /challenges/:userId` but not counted. -/
theorem profile_counts_partition (userId : String) (data : Store) :
    (profile userId data).activeChallenges + (profile userId data).completedChallenges =
      (profile userId data).totalChallenges ∧
    (profile userId data).totalChallenges =
      data.challenges.countP (fun c => c.userId == .str userId) ∧
    (listChallenges userId data).length =
      (profile userId data).totalChallenges +
        data.challenges.countP
          (fun c => c.userId != .str userId && c.witnesses.contains (.str userId)) := by
  refine ⟨?_, ?_, ?_⟩
  · simp only [profile]
    have h := length_filter_add_length_filter_not
      (fun c : Challenge => decide (c.progress < toNumber c.duration))
      (data.challenges.filter (fun c => c.userId == .str userId))
    have e : (fun c : Challenge => decide (c.progress ≥ toNumber c.duration)) =
        (fun c => !decide (c.progress < toNumber c.duration)) := by
      funext c
      by_cases hlt : c.progress < toNumber c.duration
      · simp [hlt]
      · simp [hlt, not_lt.mp hlt]
    rw [e]
    exact h
  · simp [profile, List.countP_eq_length_filter]
  · simp only [profile, listChallenges, List.countP_eq_length_filter]
    generalize data.challenges = l
    induction l with
    | nil => rfl
    | cons x xs ih =>
      by_cases h1 : x.userId = .str userId
      · have a : (x.userId == JVal.str userId) = true := by simp [h1]
        have b : (x.userId != JVal.str userId) = false := by simp [h1]
        simp only [List.filter_cons, a, b, Bool.true_or, Bool.false_and, if_true,
          Bool.false_eq_true, if_false, List.length_cons]
        omega
      · have a : (x.userId == JVal.str userId) = false := by simp [h1]
        have b : (x.userId != JVal.str userId) = true := by simp [h1]
        cases hw : x.witnesses.contains (JVal.str userId) <;>
          simp only [List.filter_cons, a, b, hw, Bool.false_or, Bool.true_and, if_true,
            Bool.false_eq_true, if_false, List.length_cons] <;> omega

end Rashdeman
